import Mathlib

set_option maxRecDepth 100000

/-!
Shallow embedding of the `sec-insider-python` ingestion pipeline
(`src/sec_insider/form4_parser.py`, `ingestion.py`, `sec_client.py`,
`models.py`) and proofs about the claims of its specification.

Conventions used throughout:
* Python `None`-able values are `Option`s.
* Python truthiness of strings (`if s:`) is `pyTruthy` / non-emptiness.
* Python exceptions are `Except`/`Option` results; an uncaught exception
  aborts the ingestion run.
* `decimal.Decimal` values are modelled exactly as an integer mantissa with
  a power-of-ten scale (`Dec`); multiplication is exact.
* The relational store (an external collaborator, spec section 6) is
  modelled as in-memory lists of rows with the NOT NULL / UNIQUE
  constraints of `models.py`; a uniqueness conflict on the
  `(accession_number, insider_id, transaction_date, shares_traded)` tuple
  is reported by `commitWithRetry` exactly as an `IntegrityError` is.
-/

namespace SecInsider

/-! ### Python-style helpers -/

/-- Python truthiness of an optional string: `None` and `""` are falsy. -/
def pyTruthy : Option String → Bool
  | none => false
  | some s => s ≠ ""

/-- Python `a or b` for two optional strings (returns `b` whenever `a` is falsy). -/
def pyOrOpt (a b : Option String) : Option String :=
  if pyTruthy a then a else b

/-- Python `a or d` where the right operand is a plain string. -/
def pyStrOr (a : Option String) (d : String) : String :=
  match a with
  | some s => if s ≠ "" then s else d
  | none => d

/-- Split a character list at a separator character (semantics of
`str.split(sep)` / `String.splitOn` for a one-character separator). -/
def splitOnChar (sep : Char) : List Char → List (List Char)
  | [] => [[]]
  | c :: rest =>
    match splitOnChar sep rest with
    | [] => [[c]]
    | g :: gs => if c = sep then [] :: g :: gs else (c :: g) :: gs

def splitStr (sep : Char) (s : String) : List String :=
  (splitOnChar sep s.data).map String.mk

/-- ASCII whitespace (the characters `str.strip` removes in the inputs the
pipeline sees). -/
def pySpace (c : Char) : Bool := c = ' ' ∨ c = '\t' ∨ c = '\n' ∨ c = '\r'

/-- `str.strip()`. -/
def pyStrip (s : String) : String :=
  String.mk (((s.data.dropWhile pySpace).reverse.dropWhile pySpace).reverse)

def lowerChar (c : Char) : Char :=
  if 'A' ≤ c ∧ c ≤ 'Z' then Char.ofNat (c.toNat + 32) else c

def upperChar (c : Char) : Char :=
  if 'a' ≤ c ∧ c ≤ 'z' then Char.ofNat (c.toNat - 32) else c

/-- `str.lower()` (ASCII). -/
def pyLower (s : String) : String := String.mk (s.data.map lowerChar)

/-- `str.upper()` (ASCII). -/
def pyUpper (s : String) : String := String.mk (s.data.map upperChar)

/-- String slice `s[:n]`. -/
def pyTake (s : String) (n : Nat) : String := String.mk (s.data.take n)

/-! ### Exact decimals (model of `decimal.Decimal`)

A decimal is an integer mantissa together with a decimal scale:
`⟨m, s⟩` denotes `m / 10^s`.  Multiplication multiplies the mantissas and
adds the scales, which is exactly how `decimal.Decimal` multiplies. -/

structure Dec where
  mant : Int
  scale : Nat
deriving Repr, DecidableEq

/-- Exact decimal multiplication. -/
def Dec.mul (a b : Dec) : Dec := ⟨a.mant * b.mant, a.scale + b.scale⟩

/-- The rational value denoted by a decimal. -/
def Dec.toRat (d : Dec) : ℚ := (d.mant : ℚ) / ((10 : ℚ) ^ d.scale)

/-- Numeric (SQL `Numeric` column) equality of decimals, used by the store. -/
def Dec.sqlEq (a b : Dec) : Bool :=
  a.mant * (10 : Int) ^ b.scale == b.mant * (10 : Int) ^ a.scale

/-- Parse the digits/dot part of a decimal literal: returns mantissa digits
value and the number of digits after the dot, or `none` if malformed. -/
def decDigits : List Char → Option (Nat × Nat)
  | cs =>
    let intPart := cs.takeWhile Char.isDigit
    let rest := cs.dropWhile Char.isDigit
    match rest with
    | [] =>
      if intPart.isEmpty then none
      else some (intPart.foldl (fun n c => n * 10 + c.toNat - '0'.toNat) 0, 0)
    | '.' :: fracs =>
      if fracs.all Char.isDigit ∧ ¬(intPart.isEmpty ∧ fracs.isEmpty) then
        some ((intPart ++ fracs).foldl (fun n c => n * 10 + c.toNat - '0'.toNat) 0,
          fracs.length)
      else none
    | _ => none

/-- Model of the `Decimal(str)` constructor on the inputs the pipeline feeds
it (already-stripped text): optional sign, digits, optional fractional
part.  Malformed input is `none` (in Python the constructor raises, and
`_parse_decimal` catches the exception). -/
def decParse (s : String) : Option Dec :=
  match s.data with
  | '+' :: cs => (decDigits cs).map fun p => ⟨(p.1 : Int), p.2⟩
  | '-' :: cs => (decDigits cs).map fun p => ⟨-(p.1 : Int), p.2⟩
  | cs => (decDigits cs).map fun p => ⟨(p.1 : Int), p.2⟩

/-! ### Dates (model of `datetime.strptime(value, "%Y-%m-%d").date()`) -/

structure PyDate where
  year : Nat
  month : Nat
  day : Nat
deriving Repr, DecidableEq

def isLeap (y : Nat) : Bool := (y % 4 == 0 && y % 100 != 0) || y % 400 == 0

def daysInMonth (y m : Nat) : Nat :=
  if m = 2 then (if isLeap y then 29 else 28)
  else if m = 4 ∨ m = 6 ∨ m = 9 ∨ m = 11 then 30
  else 31

def natOfDigits (s : String) : Nat :=
  s.data.foldl (fun n c => n * 10 + c.toNat - '0'.toNat) 0

/-- `strptime(s, "%Y-%m-%d")`: three dash-separated all-digit groups of the
right widths denoting a valid calendar date; anything else fails. -/
def parseDateStr (s : String) : Option PyDate :=
  match splitStr '-' s with
  | [ys, ms, ds] =>
    if ys ≠ "" ∧ ys.length ≤ 4 ∧ ys.data.all Char.isDigit ∧
       ms ≠ "" ∧ ms.length ≤ 2 ∧ ms.data.all Char.isDigit ∧
       ds ≠ "" ∧ ds.length ≤ 2 ∧ ds.data.all Char.isDigit then
      let y := natOfDigits ys
      let m := natOfDigits ms
      let d := natOfDigits ds
      if 1 ≤ y ∧ 1 ≤ m ∧ m ≤ 12 ∧ 1 ≤ d ∧ d ≤ daysInMonth y m then
        some ⟨y, m, d⟩
      else none
    else none
  | _ => none

/-- `ingestion._parse_date`: falsy input gives `None`, otherwise `strptime`
with any parse failure caught and converted to `None`. -/
def parse_date (value : Option String) : Option PyDate :=
  match value with
  | none => none
  | some s => if s = "" then none else parseDateStr s

/-! ### XML element trees (model of `xml.etree.ElementTree`)

An element has a tag, the text between its start tag and its first child
(`None` when empty, as in `ElementTree`), and a list of children.  Tail
text after a child is discarded (the pipeline never reads it), and
attributes are parsed but not retained (the pipeline never reads them). -/

inductive XElem where
  | node (tag : String) (text : Option String) (children : List XElem)
deriving Repr

def XElem.tag : XElem → String
  | .node t _ _ => t

def XElem.text : XElem → Option String
  | .node _ t _ => t

def XElem.children : XElem → List XElem
  | .node _ _ c => c

/-- `ElementTree` element truthiness (`if elem:`): an element is truthy
exactly when it has children. -/
def XElem.truthy (e : XElem) : Bool := !e.children.isEmpty

/-- One step of an `ElementPath` simple path: all children of the given
nodes carrying the tag, in document order. -/
def selectStep (nodes : List XElem) (tag : String) : List XElem :=
  nodes.flatMap fun n => n.children.filter fun c => c.tag == tag

/-- `elem.findall(path)` for the slash-separated child paths the parser
uses. -/
def XElem.findall (e : XElem) (path : String) : List XElem :=
  (splitStr '/' path).foldl selectStep [e]

/-- `elem.find(path)`: first match of the path in document order. -/
def XElem.find1 (e : XElem) (path : String) : Option XElem :=
  (e.findall path).head?

/-! #### String-level XML parsing (model of `ET.fromstring`) -/

def xmlSpace (c : Char) : Bool := c = ' ' ∨ c = '\t' ∨ c = '\n' ∨ c = '\r'

def skipWs (cs : List Char) : List Char := cs.dropWhile xmlSpace

def nameChar (c : Char) : Bool := c.isAlphanum ∨ c = '_' ∨ c = '-' ∨ c = '.' ∨ c = ':'

/-- Parse a tag name (must start with a letter or underscore). -/
def parseName : List Char → Option (String × List Char)
  | c :: cs =>
    if c.isAlpha ∨ c = '_' then
      some (String.mk (c :: (c :: cs).tail.takeWhile nameChar),
        (c :: cs).tail.dropWhile nameChar)
    else none
  | [] => none

/-- Skip one quoted attribute value. -/
def skipQuoted : List Char → Option (List Char)
  | '\x22' :: cs =>
    match cs.dropWhile (fun c => c ≠ '\x22') with
    | '\x22' :: rest => some rest
    | _ => none
  | _ => none

/-- Skip attributes up to (but not consuming) `>` or `/>`. -/
def skipAttrs : Nat → List Char → Option (List Char)
  | 0, _ => none
  | fuel + 1, cs =>
    let cs := skipWs cs
    match cs with
    | '>' :: _ => some cs
    | '/' :: '>' :: _ => some cs
    | _ =>
      match parseName cs with
      | none => none
      | some (_, cs) =>
        match skipWs cs with
        | '=' :: cs =>
          match skipQuoted (skipWs cs) with
          | some cs => skipAttrs fuel cs
          | none => none
        | _ => none

mutual

/-- Parse one element starting at `<`. -/
def parseElemF : Nat → List Char → Option (XElem × List Char)
  | 0, _ => none
  | fuel + 1, cs =>
    match cs with
    | '<' :: cs =>
      match parseName cs with
      | none => none
      | some (tag, cs) =>
        match skipAttrs (cs.length + 1) cs with
        | none => none
        | some ('/' :: '>' :: rest) => some (.node tag none [], rest)
        | some ('>' :: rest) =>
          let raw := rest.takeWhile (fun c => c ≠ '<')
          let rest := rest.dropWhile (fun c => c ≠ '<')
          let text := if raw.isEmpty then none else some (String.mk raw)
          match parseSiblings fuel tag rest with
          | none => none
          | some (children, rest) => some (.node tag text children, rest)
        | some _ => none
    | _ => none

/-- Parse the children of an open element up to and including its matching
close tag; inter-child tail text is discarded. -/
def parseSiblings : Nat → String → List Char → Option (List XElem × List Char)
  | 0, _, _ => none
  | fuel + 1, openTag, cs =>
    match cs with
    | '<' :: '/' :: cs =>
      match parseName cs with
      | none => none
      | some (closeTag, cs) =>
        if closeTag = openTag then
          match skipWs cs with
          | '>' :: rest => some ([], rest)
          | _ => none
        else none
    | '<' :: _ =>
      match parseElemF fuel cs with
      | none => none
      | some (child, rest) =>
        let rest := rest.dropWhile (fun c => c ≠ '<')
        match parseSiblings fuel openTag rest with
        | none => none
        | some (children, rest) => some (child :: children, rest)
    | _ => none

end

/-- Skip an optional `<?xml ... ?>` prolog. -/
def dropPrologEnd : List Char → List Char
  | [] => []
  | '?' :: '>' :: rest => rest
  | _ :: rest => dropPrologEnd rest

def skipProlog : List Char → List Char
  | '<' :: '?' :: rest => dropPrologEnd rest
  | cs => cs

/-- Model of `ET.fromstring`: exactly one root element, optionally preceded
by a prolog, with only whitespace around it.  A failure models
`ET.ParseError`. -/
def fromstring (s : String) : Except Unit XElem :=
  let cs := skipWs (skipProlog (skipWs s.data))
  match parseElemF (cs.length + 1) cs with
  | some (e, rest) => if (skipWs rest).isEmpty then .ok e else .error ()
  | none => .error ()

/-! ### `form4_parser.py` -/

/-- A normalized transaction record (the dict built by
`_parse_transactions`).  The three boolean flags record whether the
corresponding dict key is present, which matters for
`dict.setdefault`/`dict.get` in the orchestrator; `parse_form4` always
emits these keys. -/
structure Rec where
  issuer_cik : Option String
  issuer_name : Option String
  issuer_ticker : Option String
  filing_date : Option String
  filing_date_key : Bool
  period_of_report : Option String
  form_type : Option String
  form_type_key : Bool
  accession_number : Option String
  accession_number_key : Bool
  owner_cik : Option String
  owner_name : Option String
  owner_relationship : Option String
  transaction_date : Option String
  security_title : Option String
  transaction_code : Option String
  transaction_type : Option String
  shares_traded : Option Dec
  share_price : Option Dec
  transaction_value_usd : Option Dec
  shares_owned_after : Option Dec
  ownership_type : Option String
deriving Repr, DecidableEq

/-- `_get_text`: `None` for a missing element or missing text, otherwise the
stripped text. -/
def get_text (elem : Option XElem) : Option String :=
  match elem with
  | none => none
  | some el =>
    match el.text with
    | none => none
    | some t => some (pyStrip t)

/-- `_parse_decimal`: `None` in, `None` out; otherwise `Decimal(value)` with
any exception caught and converted to `None`. -/
def parse_decimal (value : Option String) : Option Dec :=
  value.bind decParse

/-- The relationship flag tags walked by `_derive_relationship`, paired with
the label produced by `tag.replace("is", "").replace("TenPercent", "10% ")`. -/
def relTags : List (String × String) :=
  [("isDirector", "Director"), ("isOfficer", "Officer"),
   ("isTenPercentOwner", "10% Owner"), ("isOther", "Other"),
   ("officerTitle", "officerTitle")]

/-- `_derive_relationship`. -/
def derive_relationship (rel_elem : Option XElem) : Option String :=
  match rel_elem with
  | none => none
  | some rel =>
    let parts := relTags.foldl (fun acc p =>
      match get_text (rel.find1 p.1) with
      | some v =>
        if v ≠ "" then
          if pyLower v = "1" ∨ pyLower v = "true" ∨ pyLower v = "yes" then acc ++ [p.2]
          else if p.1 = "officerTitle" then acc ++ [v]
          else acc
        else acc
      | none => acc) []
    if parts.isEmpty then none else some (String.intercalate ", " parts)

/-- `TRANSACTION_CODE_MAP` lookup in `_transaction_type_from_code`. -/
def transaction_type_from_code (code : Option String) : String :=
  match code with
  | none => "OTHER"
  | some c =>
    if c = "" then "OTHER"
    else if pyUpper c = "P" then "BUY"
    else if pyUpper c = "S" then "SELL"
    else if pyUpper c = "M" then "EXERCISE"
    else "OTHER"

/-- Issuer / owner identity bundles extracted by `parse_form4`. -/
structure IssuerInfo where
  cik : Option String
  name : Option String
  ticker : Option String

structure OwnerInfo where
  cik : Option String
  name : Option String
  relationship : Option String

/-- The loop body of `_parse_transactions`: the record built for one
transaction element. -/
def txnEntryRec (issuer : IssuerInfo) (owner : OwnerInfo)
    (filing_date period_of_report accession_number : Option String)
    (txn : XElem) : Rec :=
  let date_text := get_text (txn.find1 "transactionDate/value")
  let code := get_text (txn.find1 "transactionCoding/transactionCode")
  let security_title := get_text (txn.find1 "securityTitle/value")
  let shares := parse_decimal (get_text (txn.find1 "transactionAmounts/transactionShares/value"))
  let price := parse_decimal (get_text (txn.find1 "transactionAmounts/transactionPricePerShare/value"))
  let shares_after := parse_decimal
    (get_text (txn.find1 "postTransactionAmounts/sharesOwnedFollowingTransaction/value"))
  let ownership_type := get_text (txn.find1 "ownershipNature/directOrIndirectOwnership/value")
  let txn_value :=
    match shares, price with
    | some s, some p => some (Dec.mul s p)
    | _, _ => none
  { issuer_cik := issuer.cik
    issuer_name := issuer.name
    issuer_ticker := issuer.ticker
    filing_date := filing_date
    filing_date_key := true
    period_of_report := period_of_report
    form_type := some "4"
    form_type_key := true
    accession_number := accession_number
    accession_number_key := true
    owner_cik := owner.cik
    owner_name := owner.name
    owner_relationship := owner.relationship
    transaction_date := date_text
    security_title := security_title
    transaction_code := code
    transaction_type := some (transaction_type_from_code code)
    shares_traded := shares
    share_price := price
    transaction_value_usd := txn_value
    shares_owned_after := shares_after
    ownership_type := ownership_type }

/-- `_parse_transactions`. -/
def parse_transactions (root : XElem) (issuer : IssuerInfo) (owner : OwnerInfo)
    (filing_date : Option String) : List Rec :=
  let period_of_report := get_text (root.find1 "periodOfReport")
  let accession_number :=
    pyOrOpt (get_text (root.find1 "accessionNumber")) (get_text (root.find1 "documentType"))
  let tables := [("nonDerivativeTable", "nonDerivativeTransaction"),
                 ("derivativeTable", "derivativeTransaction")]
  tables.flatMap fun tp =>
    match root.find1 tp.1 with
    | none => []
    | some table =>
      (table.findall tp.2).map
        (txnEntryRec issuer owner filing_date period_of_report accession_number)

/-- The body of `parse_form4` after a successful `ET.fromstring`. -/
def parseForm4Root (root : XElem) : List Rec :=
  let issuer : IssuerInfo :=
    { cik := get_text (root.find1 "issuer/issuerCik")
      name := get_text (root.find1 "issuer/issuerName")
      ticker := get_text (root.find1 "issuer/issuerTradingSymbol") }
  let reporting_owner := root.find1 "reportingOwner"
  let owner : OwnerInfo :=
    { cik := match reporting_owner with
        | some ro => if ro.truthy then get_text (ro.find1 "reportingOwnerId/rptOwnerCik") else none
        | none => none
      name := match reporting_owner with
        | some ro => if ro.truthy then get_text (ro.find1 "reportingOwnerId/rptOwnerName") else none
        | none => none
      relationship := derive_relationship
        (match reporting_owner with
          | some ro => if ro.truthy then ro.find1 "reportingOwnerRelationship" else none
          | none => none) }
  let filing_date := get_text (root.find1 "periodOfReport")
  parse_transactions root issuer owner filing_date

/-- `parse_form4`: a structural XML parse failure is caught and yields the
empty list. -/
def parse_form4 (raw_filing : String) : List Rec :=
  match fromstring raw_filing with
  | .error _ => []
  | .ok root => parseForm4Root root

/-! ### `sec_client.py` -/

/-- The outcome the network produces for one physical attempt. -/
inductive HttpOutcome where
  | netErr
  | resp (status : Nat)
deriving Repr, DecidableEq

/-- The observable result of `SecClient._request`. -/
inductive ReqResult where
  | ok (status : Nat)
  | netRaise
  | httpRaise (status : Nat)
  | runtimeErr
deriving Repr, DecidableEq

/-- An attempt outcome that `_request` retries. -/
def retryableB : HttpOutcome → Bool
  | .netErr => true
  | .resp s => 500 ≤ s

/-- The exception the final attempt surfaces. -/
def finalFail : HttpOutcome → ReqResult
  | .netErr => .netRaise
  | .resp s => .httpRaise s

/-- The retry loop of `SecClient._request`.  `oracle n` is the outcome of
the `n`-th physical attempt; the second component counts the calls to
`self._sleep()` (the pacing delay precedes every attempt).  `fuel` is the
number of loop iterations left (`maxRetries + 1 - attempt`). -/
def requestGo (oracle : Nat → HttpOutcome) (maxRetries : Nat) :
    Nat → Nat → ReqResult × Nat
  | _, 0 => (.runtimeErr, 0)
  | attempt, fuel + 1 =>
    match oracle attempt with
    | .netErr =>
      if attempt = maxRetries then (.netRaise, 1)
      else
        let r := requestGo oracle maxRetries (attempt + 1) fuel
        (r.1, r.2 + 1)
    | .resp s =>
      if 500 ≤ s then
        if attempt = maxRetries then (.httpRaise s, 1)
        else
          let r := requestGo oracle maxRetries (attempt + 1) fuel
          (r.1, r.2 + 1)
      else if 400 ≤ s then (.httpRaise s, 1)
      else (.ok s, 1)

/-- `SecClient._request` with `self.max_retries = 3`. -/
def request (oracle : Nat → HttpOutcome) : ReqResult × Nat :=
  requestGo oracle 3 1 3

/-- A filing-metadata dict as assembled by `fetch_form4_filings_metadata`
(plus the `accessionNumber` alternative key probed by `fetch_form4_raw`);
`none` stands for an absent key or a `None` value. -/
structure Metadata where
  accession_no : Option String
  accessionNumber : Option String
  filed_at : Option String
  form_type : Option String
  cik : Option String
  primary_document : Option String
deriving Repr, DecidableEq

/-- `str(cik).lstrip("0")`. -/
def lstripZeros (s : String) : String := String.mk (s.data.dropWhile (· = '0'))

/-- `accession_no.replace("-", "")`. -/
def removeDashes (s : String) : String := String.mk (s.data.filter (· ≠ '-'))

/-- The metadata-validation and URL-construction prefix of
`SecClient.fetch_form4_raw`; `.error ()` models the `ValueError` raised
before any request is issued. -/
def fetch_form4_raw_url (m : Metadata) : Except Unit String :=
  let accession_no := pyOrOpt m.accession_no m.accessionNumber
  if ¬ pyTruthy accession_no ∨ ¬ pyTruthy m.cik ∨ ¬ pyTruthy m.primary_document then
    .error ()
  else
    .ok ("https://www.sec.gov/Archives/edgar/data/"
      ++ lstripZeros (m.cik.getD "") ++ "/"
      ++ removeDashes (accession_no.getD "") ++ "/"
      ++ (m.primary_document.getD ""))

/-- `SecClient.fetch_form4_raw` including its network call: the result of
the validation, and the number of physical attempts (each preceded by the
pacing delay) that were issued. -/
def fetch_form4_raw_run (m : Metadata) (oracle : Nat → HttpOutcome) :
    Except Unit ReqResult × Nat :=
  match fetch_form4_raw_url m with
  | .error _ => (.error (), 0)
  | .ok _ =>
    let r := request oracle
    (.ok r.1, r.2)

/-! ### `models.py` rows and the store -/

structure CompanyRow where
  id : Nat
  issuer_cik : Option String
  ticker : Option String
  name : String
deriving Repr, DecidableEq

structure InsiderRow where
  id : Nat
  owner_cik : Option String
  name : String
  normalized_name : Option String
deriving Repr, DecidableEq

structure TxnRow where
  company_id : Nat
  insider_id : Nat
  filing_date : PyDate
  transaction_date : PyDate
  form_type : Option String
  transaction_code : Option String
  transaction_type : Option String
  insider_relationship : Option String
  security_title : Option String
  shares_traded : Option Dec
  share_price : Option Dec
  transaction_value_usd : Option Dec
  shares_owned_after : Option Dec
  ownership_type : Option String
  accession_number : Option String
deriving Repr, DecidableEq

/-- The committed database state.  `committed` holds the
`insider_transactions` rows; `nextCompanyId` / `nextInsiderId` model the
autoincrement primary keys. -/
structure DB where
  companies : List CompanyRow
  insiders : List InsiderRow
  committed : List TxnRow
  nextCompanyId : Nat
  nextInsiderId : Nat
deriving Repr, DecidableEq

def emptyDB : DB := ⟨[], [], [], 1, 1⟩

/-! ### `ingestion.py` -/

/-- `_normalize_name`. -/
def normalize_name (name : Option String) : Option String :=
  match name with
  | some s => if s ≠ "" then some (pyStrip (pyLower s)) else none
  | none => none

/-- `_get_or_create_company`.  `.error ()` models an exception escaping the
helper: `MultipleResultsFound` from `one_or_none`, or the `IntegrityError`
raised by `session.flush()` when inserting a row that violates the
`companies` NOT NULL / UNIQUE constraints. -/
def getOrCreateCompany (db : DB) (issuer_cik : Option String) (name : String)
    (ticker : Option String) : Except Unit (DB × Nat) :=
  match db.companies.filter (fun c => c.issuer_cik == issuer_cik) with
  | [] =>
    match issuer_cik with
    | none => .error ()
    | some _ =>
      .ok ({ db with
              companies := db.companies ++ [⟨db.nextCompanyId, issuer_cik, ticker, name⟩],
              nextCompanyId := db.nextCompanyId + 1 },
           db.nextCompanyId)
  | [c] =>
    let newTicker := if pyTruthy ticker && !(c.ticker == ticker) then ticker else c.ticker
    let newName := if name ≠ "" && c.name ≠ name then name else c.name
    .ok ({ db with
            companies := db.companies.map fun x =>
              if x.id = c.id then { x with ticker := newTicker, name := newName } else x },
         c.id)
  | _ => .error ()

/-- The `one_or_none` query of `_get_or_create_insider`: by owner CIK when
the record carries a truthy one, else by normalized name. -/
def insiderLookup (db : DB) (owner_cik : Option String) (normalized_name : Option String) :
    List InsiderRow :=
  if pyTruthy owner_cik then db.insiders.filter (fun i => i.owner_cik == owner_cik)
  else db.insiders.filter (fun i => i.normalized_name == normalized_name)

/-- `_get_or_create_insider`, with the same exception conventions.  The
UNIQUE constraint on `insiders.owner_cik` treats NULLs as distinct, as SQL
does. -/
def getOrCreateInsider (db : DB) (owner_cik : Option String) (owner_name : String) :
    Except Unit (DB × Nat) :=
  match insiderLookup db owner_cik (normalize_name (some owner_name)) with
  | [] =>
    if normalize_name (some owner_name) = none then .error ()
    else if owner_cik ≠ none && db.insiders.any (fun i => i.owner_cik == owner_cik) then
      .error ()
    else
      .ok ({ db with
              insiders := db.insiders ++
                [⟨db.nextInsiderId, owner_cik, owner_name, normalize_name (some owner_name)⟩],
              nextInsiderId := db.nextInsiderId + 1 },
           db.nextInsiderId)
  | [i] =>
    if pyTruthy owner_cik && i.owner_cik == none then
      .ok ({ db with
              insiders := db.insiders.map fun x =>
                if x.id = i.id then { x with owner_cik := owner_cik } else x },
           i.id)
    else .ok (db, i.id)
  | _ => .error ()

/-- The filing-date resolution of `_create_transaction`:
`_parse_date(txn.get("filing_date")) or _parse_date(txn.get("period_of_report"))`. -/
def resolvedFilingDate (r : Rec) : Option PyDate :=
  match parse_date (if r.filing_date_key then r.filing_date else none) with
  | some d => some d
  | none => parse_date r.period_of_report

/-- `_create_transaction`: the candidate row, or `none` when it is skipped
because neither date resolves. -/
def createTransaction (companyId insiderId : Nat) (r : Rec) : Option TxnRow :=
  let filing_date := resolvedFilingDate r
  let transaction_date := parse_date r.transaction_date
  match filing_date, transaction_date with
  | some f, some t =>
    some { company_id := companyId
           insider_id := insiderId
           filing_date := f
           transaction_date := t
           form_type := if r.form_type_key then r.form_type else some "4"
           transaction_code := r.transaction_code
           transaction_type := r.transaction_type
           insider_relationship := r.owner_relationship
           security_title := r.security_title
           shares_traded := r.shares_traded
           share_price := r.share_price
           transaction_value_usd := r.transaction_value_usd
           shares_owned_after := r.shares_owned_after
           ownership_type := r.ownership_type
           accession_number := if r.accession_number_key then r.accession_number else none }
  | _, _ => none

/-- Column equality used by the store's uniqueness-conflict detection on
the nullable `Numeric` column `shares_traded`.  Non-null values compare
numerically, as SQL `Numeric` does.  The store itself is out of scope and
is modelled from the spec's interface (sections 3 and 6: the four-column
tuple "is unique -- this is the sole de-duplication key"), so two absent
values collide here; a SQL engine configured with NULLS DISTINCT unique
indexes would instead admit repeated rows whose `shares_traded` is NULL. -/
def sqlOptDecEq : Option Dec → Option Dec → Bool
  | none, none => true
  | some a, some b => Dec.sqlEq a b
  | _, _ => false

/-- Whether two transaction rows collide on the
`(accession_number, insider_id, transaction_date, shares_traded)` UNIQUE
constraint of `InsiderTransaction`. -/
def sameTuple (t row : TxnRow) : Bool :=
  t.accession_number == row.accession_number &&
  t.insider_id == row.insider_id &&
  t.transaction_date == row.transaction_date &&
  sqlOptDecEq t.shares_traded row.shares_traded

/-- Whether committing `row` against the committed rows raises an
`IntegrityError`: a NOT NULL violation on one of the mandatory columns, or
a duplicate of the UNIQUE tuple. -/
def violates (committed : List TxnRow) (row : TxnRow) : Bool :=
  row.form_type.isNone || row.transaction_code.isNone ||
  row.transaction_type.isNone || row.accession_number.isNone ||
  committed.any (fun t => sameTuple t row)

/-- `_commit_with_retry`: `dbCommitted` is the state at the last commit
(what `session.rollback()` restores), `dbSession` the session state with
this record's flushed entity changes, `pending` the transaction row added
by `_create_transaction` (if any).  An `IntegrityError` is caught and the
whole pending change set is rolled back. -/
def commitWithRetry (dbCommitted dbSession : DB) (pending : Option TxnRow) : DB :=
  match pending with
  | none => dbSession
  | some row =>
    if violates dbSession.committed row then dbCommitted
    else { dbSession with committed := dbSession.committed ++ [row] }

/-- One iteration of the record loop inside `ingest_form4_filings`:
company resolution, insider resolution, candidate construction, commit.
`none` models an uncaught exception aborting the run (the session is
closed, discarding uncommitted changes). -/
def processRecord (db : DB) (r : Rec) : Option DB :=
  match getOrCreateCompany db r.issuer_cik (pyStrOr r.issuer_name "Unknown") r.issuer_ticker with
  | .error _ => none
  | .ok (db1, companyId) =>
    match getOrCreateInsider db1 r.owner_cik (pyStrOr r.owner_name "Unknown") with
    | .error _ => none
    | .ok (db2, insiderId) =>
      some (commitWithRetry db db2 (createTransaction companyId insiderId r))

/-- The record loop: an uncaught exception stops the run, leaving the
committed state as of the last commit. -/
def runIngest : DB → List Rec → DB
  | db, [] => db
  | db, r :: rs =>
    match processRecord db r with
    | some db' => runIngest db' rs
    | none => db

/-- `_apply_metadata_defaults` for one record: `dict.setdefault` fills a
field only when its key is absent from the dict. -/
def applyMetadataDefaults1 (m : Metadata) (r : Rec) : Rec :=
  let r := if r.filing_date_key then r
    else { r with filing_date := some (pyTake (pyStrOr m.filed_at "") 10), filing_date_key := true }
  let r := if r.accession_number_key then r
    else { r with accession_number := m.accession_no, accession_number_key := true }
  if r.form_type_key then r
  else { r with form_type := some (pyStrOr m.form_type "4"), form_type_key := true }

/-- The records one `(metadata, raw document)` filing contributes to the
ingestion loop: `_apply_metadata_defaults(parse_form4(raw), metadata)`. -/
def filingRecs (m : Metadata) (raw : String) : List Rec :=
  (parse_form4 raw).map (applyMetadataDefaults1 m)

/-- All records an ingestion run processes, in order. -/
def recsOf (filings : List (Metadata × String)) : List Rec :=
  filings.flatMap fun p => filingRecs p.1 p.2

/-- `ingest_form4_filings` over a fixed registry answer: the same date
window with the registry returning the same filings corresponds to the
same `(metadata, raw)` list. -/
def ingestFilings (filings : List (Metadata × String)) (db : DB) : DB :=
  runIngest db (recsOf filings)

/-! ### Invariants used by the idempotence proof -/

/-- The identity-relevant projection of the `companies` table: row id and
issuer CIK (name/ticker are mutable and do not influence control flow). -/
def companyKey (c : CompanyRow) : Nat × Option String := (c.id, c.issuer_cik)

def companiesKey (db : DB) : List (Nat × Option String) :=
  db.companies.map companyKey

/-- Well-formedness maintained by every run: autoincrement ids of insiders
are below the counter, and committed transaction rows only reference
already-allocated insider ids. -/
structure WF (db : DB) : Prop where
  insIdBound : ∀ i ∈ db.insiders, i.id < db.nextInsiderId
  txnInsBound : ∀ t ∈ db.committed, t.insider_id < db.nextInsiderId

theorem WF_empty : WF emptyDB := by
  constructor <;> intro x hx <;> simp [emptyDB] at hx

/-! ## Supporting lemmas -/

theorem requestGo_retry (o : Nat → HttpOutcome) (a f : Nat)
    (h : retryableB (o a) = true) (hne : a ≠ 3) :
    requestGo o 3 a (f + 1) =
      ((requestGo o 3 (a + 1) f).1, (requestGo o 3 (a + 1) f).2 + 1) := by
  cases ho : o a with
  | netErr => simp [requestGo, ho, hne]
  | resp s =>
    have h5 : 500 ≤ s := by simpa [retryableB, ho] using h
    simp [requestGo, ho, hne, h5]

theorem requestGo_last (o : Nat → HttpOutcome) (f : Nat)
    (h : retryableB (o 3) = true) :
    requestGo o 3 3 (f + 1) = (finalFail (o 3), 1) := by
  cases ho : o 3 with
  | netErr => simp [requestGo, ho, finalFail]
  | resp s =>
    have h5 : 500 ≤ s := by simpa [retryableB, ho] using h
    simp [requestGo, ho, finalFail, h5]

theorem requestGo_ok (o : Nat → HttpOutcome) (a f s : Nat)
    (ho : o a = .resp s) (h : s < 400) :
    requestGo o 3 a (f + 1) = (.ok s, 1) := by
  have h5 : ¬ 500 ≤ s := by omega
  have h4 : ¬ 400 ≤ s := by omega
  simp [requestGo, ho, h5, h4]

theorem requestGo_4xx (o : Nat → HttpOutcome) (a f s : Nat)
    (ho : o a = .resp s) (h4 : 400 ≤ s) (h5 : s < 500) :
    requestGo o 3 a (f + 1) = (.httpRaise s, 1) := by
  have h5n : ¬ 500 ≤ s := by omega
  simp [requestGo, ho, h5n, h4]

/-! ## Claim theorems -/

/-- C4.  Retry policy of `SecClient._request` (`max_retries = 3`): a
response with status in 400-499 on the first attempt raises immediately
after a single attempt (one pacing delay, no retry); if all three attempts
fail retryably (network error or status >= 500) exactly three attempts are
made, each preceded by the pacing delay, and only the final attempt's
failure is raised; if some attempt returns status < 400 after only
retryable failures, that response is returned, again with one pacing delay
per attempt.  The second component of `request` counts the `_sleep` calls,
one before every physical attempt. -/
theorem c4_request_retry_policy :
    (∀ (o : Nat → HttpOutcome) (s : Nat), o 1 = .resp s → 400 ≤ s → s < 500 →
      request o = (.httpRaise s, 1)) ∧
    (∀ o : Nat → HttpOutcome, retryableB (o 1) = true → retryableB (o 2) = true →
      retryableB (o 3) = true → request o = (finalFail (o 3), 3)) ∧
    (∀ (o : Nat → HttpOutcome) (k s : Nat), 1 ≤ k → k ≤ 3 →
      (∀ j, 1 ≤ j → j < k → retryableB (o j) = true) → o k = .resp s → s < 400 →
      request o = (.ok s, k)) := by
  refine ⟨?_, ?_, ?_⟩
  · intro o s h1 h4 h5
    show requestGo o 3 1 3 = (.httpRaise s, 1)
    exact requestGo_4xx o 1 2 s h1 h4 h5
  · intro o h1 h2 h3
    show requestGo o 3 1 3 = (finalFail (o 3), 3)
    rw [requestGo_retry o 1 2 h1 (by omega), requestGo_retry o 2 1 h2 (by omega),
      requestGo_last o 0 h3]
  · intro o k s hk1 hk3 hprev hk h4
    interval_cases k
    · show requestGo o 3 1 3 = (.ok s, 1)
      exact requestGo_ok o 1 2 s hk h4
    · show requestGo o 3 1 3 = (.ok s, 2)
      rw [requestGo_retry o 1 2 (hprev 1 (by omega) (by omega)) (by omega),
        requestGo_ok o 2 1 s hk h4]
    · show requestGo o 3 1 3 = (.ok s, 3)
      rw [requestGo_retry o 1 2 (hprev 1 (by omega) (by omega)) (by omega),
        requestGo_retry o 2 1 (hprev 2 (by omega) (by omega)) (by omega),
        requestGo_ok o 3 0 s hk h4]

/-- Witness for C4 at concrete attempt oracles. -/
theorem c4_request_retry_policy_witness :
    request (fun _ => .resp 404) = (.httpRaise 404, 1) ∧
    request (fun _ => .netErr) = (.netRaise, 3) ∧
    request (fun n => if n < 3 then .resp 503 else .resp 200) = (.ok 200, 3) := by
  refine ⟨c4_request_retry_policy.1 (fun _ => .resp 404) 404 rfl (by omega) (by omega), ?_, ?_⟩
  · exact c4_request_retry_policy.2.1 (fun _ => .netErr) rfl rfl rfl
  · exact c4_request_retry_policy.2.2 (fun n => if n < 3 then .resp 503 else .resp 200)
      3 200 (by omega) (by omega) (by intro j h1 h2; interval_cases j <;> rfl) rfl (by omega)

/-- Metadata with all three required fields present (`some`), but an empty
CIK string: `fetch_form4_raw` raises although nothing is absent. -/
def c5meta : Metadata :=
  ⟨some "0000320193-24-000010", none, none, none, some "", some "form4.xml"⟩

/-- C5 counterexample: the claim says `fetch_form4_raw` raises only when
CIK, accession number, or primary document is absent from the metadata;
with a present-but-empty CIK it raises anyway. -/
theorem c5_counterexample :
    ¬ ((fetch_form4_raw_url c5meta).isOk = false →
      c5meta.accession_no = none ∨ c5meta.cik = none ∨ c5meta.primary_document = none) := by
  decide

/-- C5 (amended).  `fetch_form4_raw` raises if and only if at least one of
accession number (either metadata key), CIK, or primary document is absent
or empty (Python-falsy); the failure happens before any physical request
is issued (zero attempts, hence never retried); when all three are
non-empty the document URL is built from the CIK with leading zeros
stripped, the accession number with dashes removed, and the primary
document name. -/
theorem c5_fetch_raw_metadata_gate :
    (∀ m : Metadata, (fetch_form4_raw_url m).isOk = false ↔
      (pyTruthy (pyOrOpt m.accession_no m.accessionNumber) = false ∨
       pyTruthy m.cik = false ∨ pyTruthy m.primary_document = false)) ∧
    (∀ (m : Metadata) (o : Nat → HttpOutcome), (fetch_form4_raw_url m).isOk = false →
      fetch_form4_raw_run m o = (.error (), 0)) ∧
    (∀ (m : Metadata) (a c p : String),
      pyOrOpt m.accession_no m.accessionNumber = some a → a ≠ "" →
      m.cik = some c → c ≠ "" → m.primary_document = some p → p ≠ "" →
      fetch_form4_raw_url m =
        .ok ("https://www.sec.gov/Archives/edgar/data/" ++ lstripZeros c ++ "/"
          ++ removeDashes a ++ "/" ++ p)) := by
  refine ⟨?_, ?_, ?_⟩
  · intro m
    simp only [fetch_form4_raw_url]
    split
    · next h =>
      exact iff_of_true rfl (by simpa [Bool.not_eq_true] using h)
    · next h =>
      refine iff_of_false (by simp [Except.isOk, Except.toBool]) ?_
      intro hd
      exact h (by simpa [Bool.not_eq_true] using hd)
  · intro m o h
    cases hu : fetch_form4_raw_url m with
    | error e => simp [fetch_form4_raw_run, hu]
    | ok v => rw [hu] at h; simp [Except.isOk, Except.toBool] at h
  · intro m a c p ha ha' hc hc' hp hp'
    simp [fetch_form4_raw_url, ha, hc, hp, pyTruthy, ha', hc', hp']

/-- Witness for C5's hypothesis-bearing conjuncts at concrete metadata. -/
theorem c5_fetch_raw_metadata_gate_witness :
    fetch_form4_raw_run ⟨none, none, none, none, some "320193", some "form4.xml"⟩
        (fun _ => .resp 200) = (.error (), 0) ∧
    fetch_form4_raw_url ⟨some "0000320193-24-000010", none, none, none, some "0320193", some "form4.xml"⟩ =
      .ok "https://www.sec.gov/Archives/edgar/data/320193/000032019324000010/form4.xml" := by
  constructor
  · exact c5_fetch_raw_metadata_gate.2.1 _ _ (by decide)
  · exact c5_fetch_raw_metadata_gate.2.2 _ "0000320193-24-000010" "0320193" "form4.xml"
      (by decide) (by decide) (by decide) (by decide) (by decide) (by decide)

/-- C6.  `parse_form4` never raises: a structural XML parse failure is
caught and yields the empty list, and a successful parse proceeds to the
(total) extraction of records. -/
theorem c6_parse_never_raises : ∀ s : String,
    ((fromstring s).isOk = false → parse_form4 s = []) ∧
    (∀ root, fromstring s = .ok root → parse_form4 s = parseForm4Root root) := by
  intro s
  cases h : fromstring s with
  | error e =>
    refine ⟨fun _ => by simp [parse_form4, h], fun root hr => ?_⟩
    exact Except.noConfusion hr
  | ok root =>
    refine ⟨fun hf => ?_, fun r hr => ?_⟩
    · simp [Except.isOk, Except.toBool] at hf
    · obtain rfl : root = r := Except.ok.inj hr
      simp [parse_form4, h]

def c6bad : String := "this is not a Form 4 document"

/-- Witness for C6 at a concrete non-XML input. -/
theorem c6_parse_never_raises_witness :
    (fromstring c6bad).isOk = false ∧ parse_form4 c6bad = [] :=
  ⟨by decide, (c6_parse_never_raises c6bad).1 (by decide)⟩

/-- C7.  `_create_transaction` skips the candidate (no insert attempted)
when neither the filing date (with its period-of-report fallback) nor the
transaction date resolves; conversely, when both resolve, a candidate row
carrying those dates is produced for insertion. -/
theorem c7_date_gate : ∀ (cid iid : Nat) (r : Rec),
    (resolvedFilingDate r = none → parse_date r.transaction_date = none →
      createTransaction cid iid r = none) ∧
    (∀ f t, resolvedFilingDate r = some f → parse_date r.transaction_date = some t →
      ∃ row, createTransaction cid iid r = some row ∧ row.filing_date = f ∧
        row.transaction_date = t) := by
  intro cid iid r
  constructor
  · intro h1 h2
    simp [createTransaction, h1, h2]
  · intro f t h1 h2
    unfold createTransaction
    rw [h1, h2]
    exact ⟨_, rfl, rfl, rfl⟩

/-- A record with no resolvable dates. -/
def recNone : Rec :=
  { issuer_cik := none, issuer_name := none, issuer_ticker := none,
    filing_date := none, filing_date_key := true, period_of_report := none,
    form_type := some "4", form_type_key := true,
    accession_number := none, accession_number_key := true,
    owner_cik := none, owner_name := none, owner_relationship := none,
    transaction_date := none, security_title := none, transaction_code := none,
    transaction_type := some "OTHER", shares_traded := none, share_price := none,
    transaction_value_usd := none, shares_owned_after := none, ownership_type := none }

/-- A record whose two dates both resolve. -/
def recGood : Rec :=
  { recNone with filing_date := some "2024-01-02",
                 transaction_date := some "2024-01-03",
                 transaction_code := some "P", transaction_type := some "BUY" }

/-- Witness for C7 at concrete records. -/
theorem c7_date_gate_witness :
    createTransaction 1 1 recNone = none ∧
    (∃ row, createTransaction 1 2 recGood = some row ∧
      row.filing_date = ⟨2024, 1, 2⟩ ∧ row.transaction_date = ⟨2024, 1, 3⟩) :=
  ⟨(c7_date_gate 1 1 recNone).1 (by decide) (by decide),
   (c7_date_gate 1 2 recGood).2 ⟨2024, 1, 2⟩ ⟨2024, 1, 3⟩ (by decide) (by decide)⟩

/-- C8.  The derived USD value of a transaction entry is the exact decimal
product shares x price when both parse, and absent otherwise; decimal
multiplication is exact on the represented rationals, and shares=100 with
price=12.50 gives exactly 1250.00 (mantissa 125000 at two decimal
places). -/
theorem c8_derived_value :
    (∀ (issuer : IssuerInfo) (owner : OwnerInfo) (fd pr acc : Option String) (txn : XElem),
      (txnEntryRec issuer owner fd pr acc txn).transaction_value_usd =
        match (txnEntryRec issuer owner fd pr acc txn).shares_traded,
              (txnEntryRec issuer owner fd pr acc txn).share_price with
        | some s, some p => some (Dec.mul s p)
        | _, _ => none) ∧
    (∀ a b : Dec, (Dec.mul a b).toRat = a.toRat * b.toRat) ∧
    (parse_decimal (some "100") = some ⟨100, 0⟩ ∧
     parse_decimal (some "12.50") = some ⟨1250, 2⟩ ∧
     Dec.mul ⟨100, 0⟩ ⟨1250, 2⟩ = ⟨125000, 2⟩ ∧
     Dec.toRat ⟨125000, 2⟩ = 1250) := by
  refine ⟨fun issuer owner fd pr acc txn => rfl, fun a b => ?_,
    by decide, by decide, by decide, ?_⟩
  · simp only [Dec.mul, Dec.toRat, pow_add]
    push_cast
    rw [div_mul_div_comm]
  · norm_num [Dec.toRat]

/-- C10 (amended).  For a document that parses, every emitted record's
`accession_number` is the stripped text of the `accessionNumber` child
when that text is non-empty, and otherwise (element absent, empty, or
whitespace-only) the stripped text of the `documentType` child — i.e. the
Python `or` of the two `_get_text` results; the value is shared by all
records of the document and the key is always present. -/
theorem c10_accession_fallback : ∀ (s : String) (root : XElem) (r : Rec),
    fromstring s = .ok root → r ∈ parse_form4 s →
    r.accession_number =
      pyOrOpt (get_text (root.find1 "accessionNumber")) (get_text (root.find1 "documentType")) ∧
    r.accession_number_key = true := by
  intro s root r h hr
  have hp : parse_form4 s = parseForm4Root root := by simp [parse_form4, h]
  rw [hp] at hr
  simp only [parseForm4Root, parse_transactions, List.mem_flatMap] at hr
  obtain ⟨tp, htp, hrmem⟩ := hr
  revert hrmem
  cases htable : XElem.find1 root tp.1 with
  | none => intro hrmem; simp at hrmem
  | some table =>
    intro hrmem
    simp only [List.mem_map] at hrmem
    obtain ⟨txn, _, rfl⟩ := hrmem
    exact ⟨rfl, rfl⟩

/-- A document whose `accessionNumber` element is present but
whitespace-only, with `documentType` text `"4"`. -/
def c10doc : String := "<ownershipDocument><accessionNumber> </accessionNumber><documentType>4</documentType><nonDerivativeTable><nonDerivativeTransaction><transactionDate><value>2024-01-02</value></transactionDate></nonDerivativeTransaction></nonDerivativeTable></ownershipDocument>"

/-- C10 counterexample: the `accessionNumber` element is present, yet the
emitted record's `accession_number` is the `documentType` text `"4"`, not
the (stripped) text of the `accessionNumber` element. -/
theorem c10_counterexample :
    (parse_form4 c10doc).map (fun r => r.accession_number) = [some "4"] ∧
    ((fromstring c10doc).toOption.map (fun root => (root.find1 "accessionNumber").isSome)) =
      some true ∧
    ((fromstring c10doc).toOption.map (fun root => get_text (root.find1 "accessionNumber"))) =
      some (some "") ∧
    (some "4" : Option String) ≠ some "" := by
  refine ⟨by decide, by decide, by decide, by decide⟩

def c10root : XElem :=
  .node "ownershipDocument" none
    [.node "accessionNumber" (some " ") [],
     .node "documentType" (some "4") [],
     .node "nonDerivativeTable" none
       [.node "nonDerivativeTransaction" none
          [.node "transactionDate" none [.node "value" (some "2024-01-02") []]]]]

def c10rec : Rec :=
  { issuer_cik := none, issuer_name := none, issuer_ticker := none,
    filing_date := none, filing_date_key := true, period_of_report := none,
    form_type := some "4", form_type_key := true,
    accession_number := some "4", accession_number_key := true,
    owner_cik := none, owner_name := none, owner_relationship := none,
    transaction_date := some "2024-01-02", security_title := none,
    transaction_code := none, transaction_type := some "OTHER",
    shares_traded := none, share_price := none, transaction_value_usd := none,
    shares_owned_after := none, ownership_type := none }

/-- Witness for C10's amended theorem at the concrete document. -/
theorem c10_accession_fallback_witness :
    fromstring c10doc = .ok c10root ∧ c10rec ∈ parse_form4 c10doc ∧
    (c10rec.accession_number =
      pyOrOpt (get_text (c10root.find1 "accessionNumber"))
        (get_text (c10root.find1 "documentType")) ∧
     c10rec.accession_number_key = true) :=
  ⟨by rfl, by decide, c10_accession_fallback c10doc c10root c10rec (by rfl) (by decide)⟩

/-- A document that carries no accession number, document type, or period
of report, and metadata that does carry `filed_at` and `accession_no`. -/
def c2doc : String := "<ownershipDocument><issuer><issuerCik>0000320193</issuerCik></issuer><nonDerivativeTable><nonDerivativeTransaction><transactionDate><value>2024-01-02</value></transactionDate></nonDerivativeTransaction></nonDerivativeTable></ownershipDocument>"

def c2meta : Metadata :=
  ⟨some "0000320193-24-000010", none, some "2024-01-02T20:00:00-05:00",
   some "4", some "320193", some "form4.xml"⟩

def c2rec : Rec :=
  { issuer_cik := some "0000320193", issuer_name := none, issuer_ticker := none,
    filing_date := none, filing_date_key := true, period_of_report := none,
    form_type := some "4", form_type_key := true,
    accession_number := none, accession_number_key := true,
    owner_cik := none, owner_name := none, owner_relationship := none,
    transaction_date := some "2024-01-02", security_title := none,
    transaction_code := none, transaction_type := some "OTHER",
    shares_traded := none, share_price := none, transaction_value_usd := none,
    shares_owned_after := none, ownership_type := none }

/-- C2: the orchestrator's metadata fallback never fires.  The document
omits accession number and filing date, the metadata carries both, yet the
record that reaches the insert still has `none` in both fields, because
`parse_form4` always emits the dict keys (with `None` values) and
`dict.setdefault` only fills absent keys. -/
theorem c2_metadata_defaults_bug :
    filingRecs c2meta c2doc = [c2rec] ∧
    c2rec.filing_date = none ∧
    c2rec.accession_number = none ∧
    applyMetadataDefaults1 c2meta c2rec = c2rec ∧
    pyTake (pyStrOr c2meta.filed_at "") 10 = "2024-01-02" ∧
    c2meta.accession_no = some "0000320193-24-000010" := by
  refine ⟨by decide, by decide, by decide, by decide, by decide, by decide⟩

/-- An insider previously created from a name-only record. -/
def dbJane : DB :=
  { emptyDB with insiders := [⟨1, none, "Jane Doe", some "jane doe"⟩], nextInsiderId := 2 }

/-- C3: the CIK backfill is dead code.  A record carrying owner CIK
"0001234567" for the same person is looked up by CIK only, misses the
name-only row, and creates a second `Insider` row; the existing row's
`owner_cik` stays `None` instead of being backfilled. -/
theorem c3_backfill_dead :
    (getOrCreateInsider dbJane (some "0001234567") "Jane Doe").toOption.map
        (fun p => (p.2, p.1.insiders.map fun i => (i.id, i.owner_cik))) =
      some (2, [(1, none), (2, some "0001234567")]) := by
  decide

/-! ### Stage lemmas for the orchestrator -/

/-- The in-place refresh `_get_or_create_company` applies to the found row
(identified by primary key). -/
def companyUpdFn (c : CompanyRow) (name : String) (ticker : Option String) :
    CompanyRow → CompanyRow := fun x =>
  if x.id = c.id then
    { x with
        ticker := if pyTruthy ticker && !(c.ticker == ticker) then ticker else c.ticker,
        name := if name ≠ "" && c.name ≠ name then name else c.name }
  else x

/-- The refreshed-companies state produced by `_get_or_create_company` when
the lookup finds row `c`. -/
def companyUpd (db : DB) (c : CompanyRow) (name : String) (ticker : Option String) : DB :=
  { db with companies := db.companies.map (companyUpdFn c name ticker) }

theorem companyUpdFn_id (c : CompanyRow) (nm : String) (tk : Option String) (x : CompanyRow) :
    (companyUpdFn c nm tk x).id = x.id := by
  unfold companyUpdFn; split <;> rfl

theorem companyUpdFn_cik (c : CompanyRow) (nm : String) (tk : Option String) (x : CompanyRow) :
    (companyUpdFn c nm tk x).issuer_cik = x.issuer_cik := by
  unfold companyUpdFn; split <;> rfl

/-- The state produced by `_get_or_create_company` when the lookup misses. -/
def companyNew (db : DB) (issuer_cik : Option String) (name : String)
    (ticker : Option String) : DB :=
  { db with
      companies := db.companies ++ [⟨db.nextCompanyId, issuer_cik, ticker, name⟩],
      nextCompanyId := db.nextCompanyId + 1 }

theorem filter_map_comm {α : Type} (g : α → α) (p : α → Bool)
    (hg : ∀ x, p (g x) = p x) :
    ∀ l : List α, (l.map g).filter p = (l.filter p).map g := by
  intro l
  induction l with
  | nil => rfl
  | cons a t ih =>
    simp only [List.map_cons, List.filter_cons, hg]
    cases hp : p a <;> simp [ih]

theorem gcc_create (db : DB) (k : String) (nm : String) (tk : Option String)
    (hf : db.companies.filter (fun c => c.issuer_cik == some k) = []) :
    getOrCreateCompany db (some k) nm tk = .ok (companyNew db (some k) nm tk, db.nextCompanyId) := by
  unfold getOrCreateCompany
  rw [hf]
  rfl

theorem gcc_update (db : DB) (cik : Option String) (nm : String) (tk : Option String)
    (c : CompanyRow)
    (hf : db.companies.filter (fun x => x.issuer_cik == cik) = [c]) :
    getOrCreateCompany db cik nm tk = .ok (companyUpd db c nm tk, c.id) := by
  unfold getOrCreateCompany
  rw [hf]
  rfl

theorem gcc_none (db : DB) (nm : String) (tk : Option String)
    (hf : db.companies.filter (fun c => c.issuer_cik == none) = []) :
    getOrCreateCompany db none nm tk = .error () := by
  unfold getOrCreateCompany
  rw [hf]

theorem gcc_multi (db : DB) (cik : Option String) (nm : String) (tk : Option String)
    (x y : CompanyRow) (rest : List CompanyRow)
    (hf : db.companies.filter (fun c => c.issuer_cik == cik) = x :: y :: rest) :
    getOrCreateCompany db cik nm tk = .error () := by
  unfold getOrCreateCompany
  rw [hf]

theorem companyUpd_filter (db : DB) (c : CompanyRow) (nm : String) (tk : Option String)
    (k : Option String) :
    (companyUpd db c nm tk).companies.filter (fun x => x.issuer_cik == k) =
      (db.companies.filter (fun x => x.issuer_cik == k)).map (companyUpdFn c nm tk) := by
  show (db.companies.map (companyUpdFn c nm tk)).filter _ = _
  exact filter_map_comm _ _ (fun x => by rw [companyUpdFn_cik]) _

/-- C9.  Company resolution keeps one row per issuer CIK: a second record
with the same CIK resolves to the same row id, creates no new row, and
updates the stored ticker / name by the incoming values exactly when those
are non-empty and differ from the stored ones; in particular a non-empty
incoming ticker always ends up stored. -/
theorem c9_company_dedup :
    ∀ (db : DB) (k n1 n2 : String) (t1 t2 : Option String) (db1 db2 : DB) (id1 id2 : Nat),
      getOrCreateCompany db (some k) n1 t1 = .ok (db1, id1) →
      getOrCreateCompany db1 (some k) n2 t2 = .ok (db2, id2) →
      id1 = id2 ∧ db2.companies.length = db1.companies.length ∧
      ∃ c c2, db1.companies.filter (fun x => x.issuer_cik == some k) = [c] ∧
        db2.companies.filter (fun x => x.issuer_cik == some k) = [c2] ∧
        c2.id = id1 ∧
        c2.ticker = (if pyTruthy t2 && !(c.ticker == t2) then t2 else c.ticker) ∧
        c2.name = (if n2 ≠ "" && c.name ≠ n2 then n2 else c.name) ∧
        (pyTruthy t2 = true → c2.ticker = t2) := by
  intro db k n1 n2 t1 t2 db1 db2 id1 id2 h1 h2
  have lastTicker : ∀ c : CompanyRow, pyTruthy t2 = true →
      (if pyTruthy t2 && !(c.ticker == t2) then t2 else c.ticker) = t2 := by
    intro c ht
    cases hb : c.ticker == t2 with
    | true => simpa using (beq_iff_eq (a := c.ticker) (b := t2)).mp hb
    | false => simp [ht, hb]
  rcases hf : db.companies.filter (fun x => x.issuer_cik == some k) with _ | ⟨c0, _ | ⟨c1, rest⟩⟩
  · -- first call creates the row
    rw [gcc_create db k n1 t1 hf] at h1
    have hp := Except.ok.inj h1
    have hdb1 : companyNew db (some k) n1 t1 = db1 := congrArg Prod.fst hp
    have hid1 : db.nextCompanyId = id1 := congrArg Prod.snd hp
    subst hdb1
    subst hid1
    set newRow : CompanyRow := ⟨db.nextCompanyId, some k, t1, n1⟩ with hnew
    have hf1 : (companyNew db (some k) n1 t1).companies.filter
        (fun x => x.issuer_cik == some k) = [newRow] := by
      simp [companyNew, List.filter_append, hf, hnew]
    rw [gcc_update _ (some k) n2 t2 newRow hf1] at h2
    have hp2 := Except.ok.inj h2
    have hdb2 : companyUpd (companyNew db (some k) n1 t1) newRow n2 t2 = db2 :=
      congrArg Prod.fst hp2
    have hid2 : newRow.id = id2 := congrArg Prod.snd hp2
    subst hdb2
    subst hid2
    refine ⟨rfl, by simp [companyUpd], newRow, companyUpdFn newRow n2 t2 newRow,
      hf1, ?_, ?_, ?_, ?_, ?_⟩
    · rw [companyUpd_filter, hf1]
      rfl
    · rw [companyUpdFn_id]
    · simp [companyUpdFn]
    · simp [companyUpdFn]
    · intro ht
      have : companyUpdFn newRow n2 t2 newRow =
          { newRow with
              ticker := if pyTruthy t2 && !(newRow.ticker == t2) then t2 else newRow.ticker,
              name := if n2 ≠ "" && newRow.name ≠ n2 then n2 else newRow.name } := by
        simp [companyUpdFn]
      rw [this]
      exact lastTicker newRow ht
  · -- first call finds and refreshes the row
    rw [gcc_update db (some k) n1 t1 c0 hf] at h1
    have hp := Except.ok.inj h1
    have hdb1 : companyUpd db c0 n1 t1 = db1 := congrArg Prod.fst hp
    have hid1 : c0.id = id1 := congrArg Prod.snd hp
    subst hdb1
    subst hid1
    have hf1 : (companyUpd db c0 n1 t1).companies.filter
        (fun x => x.issuer_cik == some k) = [companyUpdFn c0 n1 t1 c0] := by
      rw [companyUpd_filter, hf]
      rfl
    rw [gcc_update _ (some k) n2 t2 _ hf1] at h2
    have hp2 := Except.ok.inj h2
    have hdb2 : companyUpd (companyUpd db c0 n1 t1) (companyUpdFn c0 n1 t1 c0) n2 t2 = db2 :=
      congrArg Prod.fst hp2
    have hid2 : (companyUpdFn c0 n1 t1 c0).id = id2 := congrArg Prod.snd hp2
    subst hdb2
    subst hid2
    refine ⟨by rw [companyUpdFn_id], by simp [companyUpd],
      companyUpdFn c0 n1 t1 c0,
      companyUpdFn (companyUpdFn c0 n1 t1 c0) n2 t2 (companyUpdFn c0 n1 t1 c0),
      hf1, ?_, ?_, ?_, ?_, ?_⟩
    · rw [companyUpd_filter, hf1]
      rfl
    · rw [companyUpdFn_id, companyUpdFn_id]
    · simp [companyUpdFn]
    · simp [companyUpdFn]
    · intro ht
      have : companyUpdFn (companyUpdFn c0 n1 t1 c0) n2 t2 (companyUpdFn c0 n1 t1 c0) =
          { (companyUpdFn c0 n1 t1 c0) with
              ticker := if pyTruthy t2 && !((companyUpdFn c0 n1 t1 c0).ticker == t2) then t2
                else (companyUpdFn c0 n1 t1 c0).ticker,
              name := if n2 ≠ "" && (companyUpdFn c0 n1 t1 c0).name ≠ n2 then n2
                else (companyUpdFn c0 n1 t1 c0).name } := by
        simp [companyUpdFn]
      rw [this]
      exact lastTicker _ ht
  · rw [gcc_multi db (some k) n1 t1 c0 c1 rest hf] at h1
    exact Except.noConfusion h1

def c9db1 : DB := ⟨[⟨1, some "320193", some "AAPL", "Apple Inc."⟩], [], [], 2, 1⟩

def c9db2 : DB := ⟨[⟨1, some "320193", some "APPL", "Apple Inc."⟩], [], [], 2, 1⟩

/-- Witness for C9 at a concrete create-then-refresh pair of records. -/
theorem c9_company_dedup_witness :
    1 = 1 ∧ c9db2.companies.length = c9db1.companies.length ∧
    ∃ c c2, c9db1.companies.filter (fun x => x.issuer_cik == some "320193") = [c] ∧
      c9db2.companies.filter (fun x => x.issuer_cik == some "320193") = [c2] ∧
      c2.id = 1 ∧
      c2.ticker = (if pyTruthy (some "APPL") && !(c.ticker == some "APPL") then some "APPL"
        else c.ticker) ∧
      c2.name = (if "Apple Inc." ≠ "" && c.name ≠ "Apple Inc." then "Apple Inc." else c.name) ∧
      (pyTruthy (some "APPL") = true → c2.ticker = some "APPL") :=
  c9_company_dedup emptyDB "320193" "Apple Inc." "Apple Inc." (some "AAPL") (some "APPL")
    c9db1 c9db2 1 1 (by rfl) (by rfl)

/-- The state produced by `_get_or_create_insider` when the lookup misses
and the insert succeeds. -/
def insiderExt (db : DB) (cik : Option String) (name : String) : DB :=
  { db with
      insiders := db.insiders ++ [⟨db.nextInsiderId, cik, name, normalize_name (some name)⟩],
      nextInsiderId := db.nextInsiderId + 1 }

theorem gci_create (db : DB) (cik : Option String) (name : String)
    (hf : insiderLookup db cik (normalize_name (some name)) = [])
    (hn : ¬ normalize_name (some name) = none)
    (hu : (cik ≠ none && db.insiders.any (fun i => i.owner_cik == cik)) = false) :
    getOrCreateInsider db cik name = .ok (insiderExt db cik name, db.nextInsiderId) := by
  unfold getOrCreateInsider
  rw [hf]
  simp only [hn, hu, if_false, Bool.false_eq_true]
  rfl

theorem gci_create_err (db : DB) (cik : Option String) (name : String)
    (hf : insiderLookup db cik (normalize_name (some name)) = [])
    (h : normalize_name (some name) = none ∨
      (cik ≠ none && db.insiders.any (fun i => i.owner_cik == cik)) = true) :
    getOrCreateInsider db cik name = .error () := by
  unfold getOrCreateInsider
  rw [hf]
  rcases h with h | h
  · simp [h]
  · by_cases hn : normalize_name (some name) = none
    · simp [hn]
    · rw [if_neg hn, if_pos h]

theorem gci_found (db : DB) (cik : Option String) (name : String) (i : InsiderRow)
    (hf : insiderLookup db cik (normalize_name (some name)) = [i]) :
    getOrCreateInsider db cik name = .ok (db, i.id) := by
  have hcond : (pyTruthy cik && (i.owner_cik == none)) = false := by
    cases hp : pyTruthy cik with
    | false => simp
    | true =>
      have hl : insiderLookup db cik (normalize_name (some name)) =
          db.insiders.filter (fun x => x.owner_cik == cik) := by
        simp [insiderLookup, hp]
      have hi : i ∈ db.insiders.filter (fun x => x.owner_cik == cik) := by
        rw [← hl, hf]; exact List.mem_singleton.mpr rfl
      have hbeq : (i.owner_cik == cik) = true := (List.mem_filter.mp hi).2
      have hcik : i.owner_cik = cik := by simpa using hbeq
      cases hc : cik with
      | none => rw [hc] at hp; simp [pyTruthy] at hp
      | some s =>
        rw [hc] at hcik
        simp [hcik]
  unfold getOrCreateInsider
  rw [hf]
  simp only [hcond, Bool.false_eq_true, if_false]

theorem gci_multi (db : DB) (cik : Option String) (name : String) (x y : InsiderRow)
    (rest : List InsiderRow)
    (hf : insiderLookup db cik (normalize_name (some name)) = x :: y :: rest) :
    getOrCreateInsider db cik name = .error () := by
  unfold getOrCreateInsider
  rw [hf]

/-- Full inversion for a successful `_get_or_create_insider` call. -/
theorem gci_ok_inv (db1 db2 : DB) (cik : Option String) (nm : String) (iid : Nat)
    (h : getOrCreateInsider db1 cik nm = .ok (db2, iid)) :
    db2.companies = db1.companies ∧ db2.committed = db1.committed ∧
    db2.nextCompanyId = db1.nextCompanyId ∧
    ((∃ i, insiderLookup db1 cik (normalize_name (some nm)) = [i] ∧ iid = i.id ∧ db2 = db1) ∨
     (insiderLookup db1 cik (normalize_name (some nm)) = [] ∧ iid = db1.nextInsiderId ∧
      db2 = insiderExt db1 cik nm)) := by
  rcases hf : insiderLookup db1 cik (normalize_name (some nm)) with _ | ⟨i, _ | ⟨j, rest⟩⟩
  · by_cases hn : normalize_name (some nm) = none
    · rw [gci_create_err db1 cik nm hf (Or.inl hn)] at h
      exact Except.noConfusion h
    · cases hu : (cik ≠ none && db1.insiders.any (fun i => i.owner_cik == cik)) with
      | true =>
        rw [gci_create_err db1 cik nm hf (Or.inr hu)] at h
        exact Except.noConfusion h
      | false =>
        rw [gci_create db1 cik nm hf hn hu] at h
        have hp := Except.ok.inj h
        have hdb : insiderExt db1 cik nm = db2 := congrArg Prod.fst hp
        have hid : db1.nextInsiderId = iid := congrArg Prod.snd hp
        subst hdb
        subst hid
        exact ⟨rfl, rfl, rfl, Or.inr ⟨rfl, rfl, rfl⟩⟩
  · rw [gci_found db1 cik nm i hf] at h
    have hp := Except.ok.inj h
    have hdb : db1 = db2 := congrArg Prod.fst hp
    have hid : i.id = iid := congrArg Prod.snd hp
    subst hdb
    subst hid
    exact ⟨rfl, rfl, rfl, Or.inl ⟨i, rfl, rfl, rfl⟩⟩
  · rw [gci_multi db1 cik nm i j rest hf] at h
    exact Except.noConfusion h

/-- Whether `_get_or_create_insider` raises depends only on the `insiders`
table. -/
theorem gci_error_congr (dbA dbB : DB) (cik : Option String) (nm : String)
    (h : dbA.insiders = dbB.insiders)
    (he : getOrCreateInsider dbA cik nm = .error ()) :
    getOrCreateInsider dbB cik nm = .error () := by
  have hl : insiderLookup dbA cik (normalize_name (some nm)) =
      insiderLookup dbB cik (normalize_name (some nm)) := by
    simp [insiderLookup, h]
  rcases hf : insiderLookup dbB cik (normalize_name (some nm)) with _ | ⟨i, _ | ⟨j, rest⟩⟩
  · by_cases hn : normalize_name (some nm) = none
    · exact gci_create_err dbB cik nm hf (Or.inl hn)
    · cases hu : (cik ≠ none && dbB.insiders.any (fun i => i.owner_cik == cik)) with
      | true => exact gci_create_err dbB cik nm hf (Or.inr hu)
      | false =>
        exfalso
        have huA : (cik ≠ none && dbA.insiders.any (fun i => i.owner_cik == cik)) = false := by
          rw [h]; exact hu
        rw [gci_create dbA cik nm (hl.trans hf) hn huA] at he
        exact Except.noConfusion he
  · exfalso
    rw [gci_found dbA cik nm i (hl.trans hf)] at he
    exact Except.noConfusion he
  · exact gci_multi dbB cik nm i j rest hf

theorem companiesKey_upd (db : DB) (c : CompanyRow) (nm : String) (tk : Option String) :
    companiesKey (companyUpd db c nm tk) = companiesKey db := by
  show (db.companies.map (companyUpdFn c nm tk)).map companyKey = db.companies.map companyKey
  rw [List.map_map]
  apply List.map_congr_left
  intro a _
  show companyKey (companyUpdFn c nm tk a) = companyKey a
  unfold companyKey
  rw [companyUpdFn_id, companyUpdFn_cik]

theorem companiesKey_new (db : DB) (cik : Option String) (nm : String) (tk : Option String) :
    companiesKey (companyNew db cik nm tk) = companiesKey db ++ [(db.nextCompanyId, cik)] := by
  simp [companiesKey, companyNew, companyKey]

/-- Full inversion for a successful `_get_or_create_company` call. -/
theorem gcc_ok_inv (db db1 : DB) (cik : Option String) (nm : String) (tk : Option String)
    (cid : Nat)
    (h : getOrCreateCompany db cik nm tk = .ok (db1, cid)) :
    db1.insiders = db.insiders ∧ db1.committed = db.committed ∧
    db1.nextInsiderId = db.nextInsiderId ∧
    ((∃ c, db.companies.filter (fun x => x.issuer_cik == cik) = [c] ∧ cid = c.id ∧
        db1 = companyUpd db c nm tk ∧ companiesKey db1 = companiesKey db) ∨
     (db.companies.filter (fun x => x.issuer_cik == cik) = [] ∧ cid = db.nextCompanyId ∧
        db1 = companyNew db cik nm tk ∧
        companiesKey db1 = companiesKey db ++ [(cid, cik)])) := by
  rcases hf : db.companies.filter (fun x => x.issuer_cik == cik) with _ | ⟨c, _ | ⟨c1, rest⟩⟩
  · cases hcik : cik with
    | none =>
      rw [hcik] at hf h
      rw [gcc_none db nm tk hf] at h
      exact Except.noConfusion h
    | some k =>
      rw [hcik] at hf h
      rw [gcc_create db k nm tk hf] at h
      have hp := Except.ok.inj h
      have hdb : companyNew db (some k) nm tk = db1 := congrArg Prod.fst hp
      have hid : db.nextCompanyId = cid := congrArg Prod.snd hp
      subst hdb
      subst hid
      exact ⟨rfl, rfl, rfl, Or.inr ⟨hf, rfl, rfl, companiesKey_new db (some k) nm tk⟩⟩
  · rw [gcc_update db cik nm tk c hf] at h
    have hp := Except.ok.inj h
    have hdb : companyUpd db c nm tk = db1 := congrArg Prod.fst hp
    have hid : c.id = cid := congrArg Prod.snd hp
    subst hdb
    subst hid
    exact ⟨rfl, rfl, rfl, Or.inl ⟨c, hf, rfl, rfl, companiesKey_upd db c nm tk⟩⟩
  · rw [gcc_multi db cik nm tk c c1 rest hf] at h
    exact Except.noConfusion h

/-- The issuer-CIK filter seen through the identity projection. -/
theorem filter_companiesKey (l : List CompanyRow) (k : Option String) :
    (l.filter (fun c => c.issuer_cik == k)).map companyKey =
      (l.map companyKey).filter (fun p => p.2 == k) := by
  induction l with
  | nil => rfl
  | cons a t ih =>
    simp only [List.map_cons, List.filter_cons]
    cases hp : (a.issuer_cik == k) with
    | true => simp [companyKey, hp, ih]
    | false => simp [companyKey, hp, ih]

/-- Whether `_get_or_create_company` raises depends only on the identity
projection of the `companies` table. -/
theorem gcc_error_congr (dbA dbB : DB) (cik : Option String) (nm : String) (tk : Option String)
    (h : companiesKey dbA = companiesKey dbB)
    (he : getOrCreateCompany dbA cik nm tk = .error ()) :
    getOrCreateCompany dbB cik nm tk = .error () := by
  have hkeys : (dbA.companies.filter (fun c => c.issuer_cik == cik)).map companyKey =
      (dbB.companies.filter (fun c => c.issuer_cik == cik)).map companyKey := by
    rw [filter_companiesKey, filter_companiesKey]
    show (companiesKey dbA).filter _ = (companiesKey dbB).filter _
    rw [h]
  rcases hfA : dbA.companies.filter (fun c => c.issuer_cik == cik) with _ | ⟨a, _ | ⟨a1, restA⟩⟩
  · -- A missed: error only possible with cik = none
    cases hcik : cik with
    | some k =>
      rw [hcik] at hfA he
      rw [gcc_create dbA k nm tk hfA] at he
      exact Except.noConfusion he
    | none =>
      rw [hcik] at hfA hkeys
      rw [hfA] at hkeys
      rcases hfB : dbB.companies.filter (fun c => c.issuer_cik == none) with _ | ⟨b, restB⟩
      · exact gcc_none dbB nm tk hfB
      · rw [hfB] at hkeys
        exact absurd hkeys.symm (by simp)
  · -- A found one row: never an error
    rw [gcc_update dbA cik nm tk a hfA] at he
    exact Except.noConfusion he
  · -- A found several: B finds the same number
    rw [hfA] at hkeys
    rcases hfB : dbB.companies.filter (fun c => c.issuer_cik == cik) with _ | ⟨b, _ | ⟨b1, restB⟩⟩
    · rw [hfB] at hkeys
      exact absurd hkeys (by simp)
    · rw [hfB] at hkeys
      simp at hkeys
    · exact gcc_multi dbB cik nm tk b b1 restB hfB

/-- The candidate row built by `_create_transaction` when both dates
resolve. -/
def ctRow (c i : Nat) (f d : PyDate) (r : Rec) : TxnRow :=
  { company_id := c
    insider_id := i
    filing_date := f
    transaction_date := d
    form_type := if r.form_type_key then r.form_type else some "4"
    transaction_code := r.transaction_code
    transaction_type := r.transaction_type
    insider_relationship := r.owner_relationship
    security_title := r.security_title
    shares_traded := r.shares_traded
    share_price := r.share_price
    transaction_value_usd := r.transaction_value_usd
    shares_owned_after := r.shares_owned_after
    ownership_type := r.ownership_type
    accession_number := if r.accession_number_key then r.accession_number else none }

theorem ct_cases (r : Rec) :
    (∀ c i, createTransaction c i r = none) ∨
    (∃ f d, resolvedFilingDate r = some f ∧ parse_date r.transaction_date = some d ∧
      ∀ c i, createTransaction c i r = some (ctRow c i f d r)) := by
  cases hfd : resolvedFilingDate r with
  | none => exact Or.inl fun c i => by simp [createTransaction, hfd]
  | some f =>
    cases htd : parse_date r.transaction_date with
    | none => exact Or.inl fun c i => by simp [createTransaction, hfd, htd]
    | some d =>
      exact Or.inr ⟨f, d, rfl, rfl, fun c i => by simp [createTransaction, hfd, htd, ctRow]⟩

theorem sqlOptDecEq_refl (x : Option Dec) : sqlOptDecEq x x = true := by
  cases x with
  | none => rfl
  | some a => simp [sqlOptDecEq, Dec.sqlEq]

theorem violates_of_mem (ct : List TxnRow) (row row' : TxnRow) (hmem : row ∈ ct)
    (hacc : row.accession_number = row'.accession_number)
    (hins : row.insider_id = row'.insider_id)
    (hdate : row.transaction_date = row'.transaction_date)
    (hsh : row.shares_traded = row'.shares_traded) :
    violates ct row' = true := by
  have hst : sameTuple row row' = true := by
    unfold sameTuple
    rw [hacc, hins, hdate, hsh]
    simp [sqlOptDecEq_refl]
  unfold violates
  have : ct.any (fun t => sameTuple t row') = true :=
    List.any_eq_true.mpr ⟨row, hmem, hst⟩
  simp [this]

theorem violates_notnull (ct : List TxnRow) (row : TxnRow)
    (h : row.form_type = none ∨ row.transaction_code = none ∨
      row.transaction_type = none ∨ row.accession_number = none) :
    violates ct row = true := by
  unfold violates
  rcases h with h | h | h | h <;> simp [h]

theorem insiderLookup_subset (db : DB) (cik nn : Option String) (i : InsiderRow)
    (h : i ∈ insiderLookup db cik nn) : i ∈ db.insiders := by
  unfold insiderLookup at h
  split at h <;> exact List.mem_of_mem_filter h

theorem processRecord_destruct (db db' : DB) (r : Rec) (h : processRecord db r = some db') :
    ∃ db1 cid db2 iid,
      getOrCreateCompany db r.issuer_cik (pyStrOr r.issuer_name "Unknown") r.issuer_ticker =
        .ok (db1, cid) ∧
      getOrCreateInsider db1 r.owner_cik (pyStrOr r.owner_name "Unknown") = .ok (db2, iid) ∧
      db' = commitWithRetry db db2 (createTransaction cid iid r) := by
  unfold processRecord at h
  cases hc : getOrCreateCompany db r.issuer_cik (pyStrOr r.issuer_name "Unknown") r.issuer_ticker with
  | error e => rw [hc] at h; exact Option.noConfusion h
  | ok p =>
    obtain ⟨db1, cid⟩ := p
    rw [hc] at h
    dsimp only at h
    cases hi : getOrCreateInsider db1 r.owner_cik (pyStrOr r.owner_name "Unknown") with
    | error e => rw [hi] at h; exact Option.noConfusion h
    | ok q =>
      obtain ⟨db2, iid⟩ := q
      rw [hi] at h
      refine ⟨db1, cid, db2, iid, ?_, ?_, (Option.some.inj h).symm⟩ <;>
        first
        | rfl
        | exact hc
        | exact hi

theorem processRecord_of_stages (db db1 db2 : DB) (cid iid : Nat) (r : Rec)
    (hc : getOrCreateCompany db r.issuer_cik (pyStrOr r.issuer_name "Unknown") r.issuer_ticker =
      .ok (db1, cid))
    (hi : getOrCreateInsider db1 r.owner_cik (pyStrOr r.owner_name "Unknown") = .ok (db2, iid)) :
    processRecord db r = some (commitWithRetry db db2 (createTransaction cid iid r)) := by
  unfold processRecord
  rw [hc]
  dsimp only
  rw [hi]

theorem processRecord_abort_company (db : DB) (r : Rec)
    (hc : getOrCreateCompany db r.issuer_cik (pyStrOr r.issuer_name "Unknown") r.issuer_ticker =
      .error ()) :
    processRecord db r = none := by
  unfold processRecord
  rw [hc]

theorem processRecord_abort_insider (db db1 : DB) (cid : Nat) (r : Rec)
    (hc : getOrCreateCompany db r.issuer_cik (pyStrOr r.issuer_name "Unknown") r.issuer_ticker =
      .ok (db1, cid))
    (hi : getOrCreateInsider db1 r.owner_cik (pyStrOr r.owner_name "Unknown") = .error ()) :
    processRecord db r = none := by
  unfold processRecord
  rw [hc]
  dsimp only
  rw [hi]

theorem ct_insider_id (cid iid : Nat) (r : Rec) (row : TxnRow)
    (h : createTransaction cid iid r = some row) : row.insider_id = iid := by
  rcases ct_cases r with hnone | ⟨f, d, _, _, hsome⟩
  · rw [hnone cid iid] at h
    exact Option.noConfusion h
  · rw [hsome cid iid] at h
    rw [← Option.some.inj h]
    rfl

theorem processRecord_WF (db db' : DB) (r : Rec) (hwf : WF db)
    (h : processRecord db r = some db') : WF db' := by
  obtain ⟨db1, cid, db2, iid, hc, hi, hcomm⟩ := processRecord_destruct db db' r h
  subst hcomm
  obtain ⟨hIns1, hCom1, hNI1, _⟩ := gcc_ok_inv _ _ _ _ _ _ hc
  obtain ⟨hComp2, hCom2, _, hcaseI⟩ := gci_ok_inv _ _ _ _ _ hi
  have key : WF db2 ∧ iid < db2.nextInsiderId ∧ db2.committed = db.committed := by
    rcases hcaseI with ⟨i, hfound, hiid, hdb2⟩ | ⟨hmiss, hiid, hdb2⟩
    · have hIns2 : db2.insiders = db.insiders := by rw [hdb2, hIns1]
      have hComx : db2.committed = db.committed := by rw [hdb2, hCom1]
      have hNI2 : db2.nextInsiderId = db.nextInsiderId := by rw [hdb2, hNI1]
      refine ⟨⟨?_, ?_⟩, ?_, hComx⟩
      · intro x hx
        rw [hNI2]
        exact hwf.insIdBound x (hIns2 ▸ hx)
      · intro t ht
        rw [hNI2]
        exact hwf.txnInsBound t (hComx ▸ ht)
      · have hmem : i ∈ db1.insiders :=
          insiderLookup_subset db1 r.owner_cik
            (normalize_name (some (pyStrOr r.owner_name "Unknown"))) i
            (by rw [hfound]; exact List.mem_singleton.mpr rfl)
        rw [hiid, hNI2]
        exact hwf.insIdBound i (hIns1 ▸ hmem)
    · have hIns2 : db2.insiders = db1.insiders ++
          [⟨db1.nextInsiderId, r.owner_cik, pyStrOr r.owner_name "Unknown",
            normalize_name (some (pyStrOr r.owner_name "Unknown"))⟩] := by
        rw [hdb2]; rfl
      have hComx : db2.committed = db.committed := by
        rw [hdb2]
        show db1.committed = db.committed
        exact hCom1
      have hNI2 : db2.nextInsiderId = db1.nextInsiderId + 1 := by rw [hdb2]; rfl
      refine ⟨⟨?_, ?_⟩, ?_, hComx⟩
      · intro x hx
        rw [hIns2] at hx
        rw [List.mem_append, List.mem_singleton] at hx
        rw [hNI2]
        rcases hx with hx | rfl
        · have hb := hwf.insIdBound x (hIns1 ▸ hx)
          rw [← hNI1] at hb
          omega
        · show db1.nextInsiderId < db1.nextInsiderId + 1
          omega
      · intro t ht
        rw [hComx] at ht
        have hb := hwf.txnInsBound t ht
        rw [← hNI1] at hb
        rw [hNI2]
        omega
      · rw [hiid, hNI2]
        omega
  obtain ⟨hWF2, hiid2, hcommitted2⟩ := key
  cases hct : createTransaction cid iid r with
  | none => exact hWF2
  | some row =>
    unfold commitWithRetry
    dsimp only
    split
    · exact hwf
    · constructor
      · intro x hx
        exact hWF2.insIdBound x hx
      · intro t ht
        simp only [List.mem_append, List.mem_singleton] at ht
        rcases ht with ht | rfl
        · exact hWF2.txnInsBound t ht
        · rw [ct_insider_id cid iid r t hct]
          exact hiid2

theorem processRecord_mono (db db' : DB) (r : Rec) (h : processRecord db r = some db') :
    db.committed ⊆ db'.committed ∧ db.insiders ⊆ db'.insiders ∧
    companiesKey db ⊆ companiesKey db' := by
  obtain ⟨db1, cid, db2, iid, hc, hi, hcomm⟩ := processRecord_destruct db db' r h
  subst hcomm
  obtain ⟨hIns1, hCom1, _, hcaseC⟩ := gcc_ok_inv _ _ _ _ _ _ hc
  obtain ⟨hComp2, hCom2, _, hcaseI⟩ := gci_ok_inv _ _ _ _ _ hi
  have hkey1 : companiesKey db ⊆ companiesKey db1 := by
    rcases hcaseC with ⟨c, _, _, _, hk⟩ | ⟨_, _, _, hk⟩
    · rw [hk]; exact List.Subset.refl _
    · rw [hk]; exact List.subset_append_left _ _
  have hkey2 : companiesKey db1 = companiesKey db2 := by
    unfold companiesKey
    rw [hComp2]
  have hins2 : db.insiders ⊆ db2.insiders := by
    rcases hcaseI with ⟨i, _, _, hdb2⟩ | ⟨_, _, hdb2⟩
    · rw [hdb2, hIns1]; exact List.Subset.refl _
    · rw [hdb2]
      show db.insiders ⊆ db1.insiders ++ _
      rw [← hIns1]
      exact List.subset_append_left _ _
  have hcom2 : db.committed = db2.committed := (hCom2.trans hCom1).symm
  have hkeysub : companiesKey db ⊆ companiesKey db2 := by
    rw [← hkey2]
    exact hkey1
  cases hct : createTransaction cid iid r with
  | none =>
    refine ⟨?_, hins2, hkeysub⟩
    rw [hcom2]
    exact List.Subset.refl _
  | some row =>
    unfold commitWithRetry
    dsimp only
    split
    · exact ⟨List.Subset.refl _, List.Subset.refl _, List.Subset.refl _⟩
    · refine ⟨?_, hins2, hkeysub⟩
      rw [hcom2]
      exact List.subset_append_left _ _

theorem processRecord_abort_congr (r : Rec) (u t : DB)
    (hins : t.insiders = u.insiders) (hck : companiesKey t = companiesKey u)
    (h : processRecord u r = none) : processRecord t r = none := by
  cases hct : getOrCreateCompany t r.issuer_cik (pyStrOr r.issuer_name "Unknown") r.issuer_ticker with
  | error e =>
    cases e
    exact processRecord_abort_company t r hct
  | ok p =>
    obtain ⟨t1, cidt⟩ := p
    cases hcu : getOrCreateCompany u r.issuer_cik (pyStrOr r.issuer_name "Unknown") r.issuer_ticker with
    | error e =>
      cases e
      have := gcc_error_congr u t _ _ _ hck.symm hcu
      rw [hct] at this
      exact Except.noConfusion this
    | ok q =>
      obtain ⟨u1, cidu⟩ := q
      have hiu : getOrCreateInsider u1 r.owner_cik (pyStrOr r.owner_name "Unknown") = .error () := by
        cases hiu' : getOrCreateInsider u1 r.owner_cik (pyStrOr r.owner_name "Unknown") with
        | error e => cases e; rfl
        | ok q2 =>
          obtain ⟨u2, iiu⟩ := q2
          rw [processRecord_of_stages u u1 u2 cidu iiu r hcu hiu'] at h
          exact Option.noConfusion h
      have ht1 : u1.insiders = t1.insiders := by
        have h1 := (gcc_ok_inv _ _ _ _ _ _ hct).1
        have h2 := (gcc_ok_inv _ _ _ _ _ _ hcu).1
        rw [h1, h2, hins]
      have hit : getOrCreateInsider t1 r.owner_cik (pyStrOr r.owner_name "Unknown") = .error () :=
        gci_error_congr u1 t1 _ _ ht1 hiu
      exact processRecord_abort_insider t t1 cidt r hct hit

theorem runIngest_WF : ∀ (rs : List Rec) (db : DB), WF db → WF (runIngest db rs) := by
  intro rs
  induction rs with
  | nil => intro db hwf; exact hwf
  | cons r rs ih =>
    intro db hwf
    show WF (match processRecord db r with
      | some db' => runIngest db' rs
      | none => db)
    cases h : processRecord db r with
    | some db' => exact ih db' (processRecord_WF db db' r hwf h)
    | none => exact hwf

theorem runIngest_cons (db : DB) (r : Rec) (rs : List Rec) :
    runIngest db (r :: rs) =
      match processRecord db r with
      | some db' => runIngest db' rs
      | none => db := rfl

theorem runIngest_mono : ∀ (rs : List Rec) (db : DB),
    db.committed ⊆ (runIngest db rs).committed ∧
    db.insiders ⊆ (runIngest db rs).insiders ∧
    companiesKey db ⊆ companiesKey (runIngest db rs) := by
  intro rs
  induction rs with
  | nil => intro db; exact ⟨List.Subset.refl _, List.Subset.refl _, List.Subset.refl _⟩
  | cons r rs ih =>
    intro db
    rw [runIngest_cons]
    cases h : processRecord db r with
    | some db' =>
      obtain ⟨h1, h2, h3⟩ := processRecord_mono db db' r h
      obtain ⟨g1, g2, g3⟩ := ih db'
      exact ⟨h1.trans g1, h2.trans g2, h3.trans g3⟩
    | none => exact ⟨List.Subset.refl _, List.Subset.refl _, List.Subset.refl _⟩

/-- The row predicate of the insider lookup. -/
def insiderPred (cik nn : Option String) (i : InsiderRow) : Bool :=
  if pyTruthy cik then i.owner_cik == cik else i.normalized_name == nn

theorem insiderLookup_eq_filter (db : DB) (cik nn : Option String) :
    insiderLookup db cik nn = db.insiders.filter (insiderPred cik nn) := by
  unfold insiderLookup insiderPred
  by_cases hp : pyTruthy cik = true <;> simp [hp]

theorem insiderPred_newRow (cik nn : Option String) (idv : Nat) (nm : String) :
    insiderPred cik nn ⟨idv, cik, nm, nn⟩ = true := by
  unfold insiderPred
  by_cases hp : pyTruthy cik = true <;> simp [hp]

theorem insiderLookup_mem (db : DB) (cik nn : Option String) (i : InsiderRow) :
    i ∈ insiderLookup db cik nn ↔ i ∈ db.insiders ∧ insiderPred cik nn i = true := by
  rw [insiderLookup_eq_filter]
  exact List.mem_filter

theorem companiesKey_filter_ne_nil (db : DB) (k : Option String) (κ : Nat)
    (h : (κ, k) ∈ companiesKey db) :
    db.companies.filter (fun c => c.issuer_cik == k) ≠ [] := by
  obtain ⟨row, hrow, hkey⟩ := List.mem_map.mp h
  have hcik : row.issuer_cik = k := congrArg Prod.snd hkey
  have : row ∈ db.companies.filter (fun c => c.issuer_cik == k) :=
    List.mem_filter.mpr ⟨hrow, by rw [hcik]; exact beq_self_eq_true k⟩
  exact List.ne_nil_of_mem this

theorem filter_mem_companiesKey (db : DB) (k : Option String) (c : CompanyRow)
    (h : c ∈ db.companies.filter (fun x => x.issuer_cik == k)) :
    (c.id, k) ∈ companiesKey db := by
  obtain ⟨hmem, hbeq⟩ := List.mem_filter.mp h
  have hcik : c.issuer_cik = k := by simpa using hbeq
  exact List.mem_map.mpr ⟨c, hmem, by rw [companyKey, hcik]⟩

theorem violates_split (ct : List TxnRow) (row : TxnRow) (h : violates ct row = true) :
    (row.form_type = none ∨ row.transaction_code = none ∨ row.transaction_type = none ∨
      row.accession_number = none) ∨
    ∃ τ ∈ ct, sameTuple τ row = true := by
  unfold violates at h
  simp only [Bool.or_eq_true, Option.isNone_iff_eq_none, List.any_eq_true] at h
  tauto

theorem sameTuple_ctRow_congr (τ : TxnRow) (c c' i : Nat) (f d : PyDate) (r : Rec) :
    sameTuple τ (ctRow c i f d r) = sameTuple τ (ctRow c' i f d r) := rfl

theorem violates_dup (ct : List TxnRow) (row : TxnRow) (τ : TxnRow) (hτ : τ ∈ ct)
    (hst : sameTuple τ row = true) : violates ct row = true := by
  unfold violates
  have : ct.any (fun t => sameTuple t row) = true := List.any_eq_true.mpr ⟨τ, hτ, hst⟩
  simp [this]

theorem ctRow_notnull_congr (c i c' i' : Nat) (f d : PyDate) (r : Rec) (ct : List TxnRow)
    (h : (ctRow c i f d r).form_type = none ∨ (ctRow c i f d r).transaction_code = none ∨
      (ctRow c i f d r).transaction_type = none ∨ (ctRow c i f d r).accession_number = none) :
    violates ct (ctRow c' i' f d r) = true := by
  exact violates_notnull ct (ctRow c' i' f d r) h

/-- Replaying one record: if processing `r` from `u` produced `u'`, then
processing the same record from any later state `t` that already contains
`u'`'s committed rows, insiders and company identities either raises
(stopping the second run) or leaves the committed rows, insiders and
company identities of `t` unchanged. -/
theorem processRecord_replay (r : Rec) (u u' t : DB)
    (hwfu : WF u)
    (hu : processRecord u r = some u')
    (hcs : u'.committed ⊆ t.committed)
    (his : u'.insiders ⊆ t.insiders)
    (hck : companiesKey u' ⊆ companiesKey t) :
    processRecord t r = none ∨
    ∃ t', processRecord t r = some t' ∧ t'.committed = t.committed ∧
      t'.insiders = t.insiders ∧ companiesKey t' = companiesKey t := by
  obtain ⟨u1, cidu, u2, iidu, hcu, hiu, hcomm⟩ := processRecord_destruct u u' r hu
  obtain ⟨hIns1u, hCom1u, hNI1u, hcaseCu⟩ := gcc_ok_inv _ _ _ _ _ _ hcu
  obtain ⟨hComp2u, hCom2u, hNC2u, hcaseIu⟩ := gci_ok_inv _ _ _ _ _ hiu
  cases hct : getOrCreateCompany t r.issuer_cik (pyStrOr r.issuer_name "Unknown") r.issuer_ticker with
  | error e =>
    cases e
    exact Or.inl (processRecord_abort_company t r hct)
  | ok p =>
    obtain ⟨t1, cidt⟩ := p
    obtain ⟨hIns1t, hCom1t, hNI1t, hcaseCt⟩ := gcc_ok_inv _ _ _ _ _ _ hct
    cases hit : getOrCreateInsider t1 r.owner_cik (pyStrOr r.owner_name "Unknown") with
    | error e =>
      cases e
      exact Or.inl (processRecord_abort_insider t t1 cidt r hct hit)
    | ok q =>
      obtain ⟨t2, iidt⟩ := q
      obtain ⟨hComp2t, hCom2t, hNC2t, hcaseIt⟩ := gci_ok_inv _ _ _ _ _ hit
      refine Or.inr ⟨commitWithRetry t t2 (createTransaction cidt iidt r),
        processRecord_of_stages t t1 t2 cidt iidt r hct hit, ?_⟩
      have ht2com : t2.committed = t.committed := hCom2t.trans hCom1t
      have hwrow : ∃ w : InsiderRow, w ∈ u2.insiders ∧
          insiderPred r.owner_cik
            (normalize_name (some (pyStrOr r.owner_name "Unknown"))) w = true ∧
          w.id = iidu := by
        rcases hcaseIu with ⟨i, hfound, hiid, hdb2⟩ | ⟨hmiss, hiid, hdb2⟩
        · have hmemi : i ∈ insiderLookup u1 r.owner_cik
              (normalize_name (some (pyStrOr r.owner_name "Unknown"))) := by
            rw [hfound]; exact List.mem_singleton.mpr rfl
          obtain ⟨hmem', hpred⟩ := (insiderLookup_mem _ _ _ _).mp hmemi
          exact ⟨i, by rw [hdb2]; exact hmem', hpred, hiid.symm⟩
        · refine ⟨⟨u1.nextInsiderId, r.owner_cik, pyStrOr r.owner_name "Unknown",
            normalize_name (some (pyStrOr r.owner_name "Unknown"))⟩, ?_,
            insiderPred_newRow _ _ _ _, by rw [hiid]⟩
          rw [hdb2]
          show _ ∈ u1.insiders ++ [_]
          exact List.mem_append_right _ (List.mem_singleton.mpr rfl)
      obtain ⟨w, hwmem, hwpred, hwid⟩ := hwrow
      have hsame : ∀ w' : InsiderRow, w' ∈ t1.insiders →
          insiderPred r.owner_cik
            (normalize_name (some (pyStrOr r.owner_name "Unknown"))) w' = true →
          t2 = t1 ∧ iidt = w'.id := by
        intro w' hwt1 hwpred'
        have hwlook : w' ∈ insiderLookup t1 r.owner_cik
            (normalize_name (some (pyStrOr r.owner_name "Unknown"))) :=
          (insiderLookup_mem _ _ _ _).mpr ⟨hwt1, hwpred'⟩
        rcases hcaseIt with ⟨i', hfound', hiid', hdb2'⟩ | ⟨hmiss', _, _⟩
        · rw [hfound'] at hwlook
          have hwi : w' = i' := List.mem_singleton.mp hwlook
          exact ⟨hdb2', by rw [hiid', ← hwi]⟩
        · rw [hmiss'] at hwlook
          exact absurd hwlook (List.not_mem_nil w')
      rcases ct_cases r with hnone | ⟨f, d, hfd, htd, hsome⟩
      · -- both runs skip the candidate; entities were committed by run one
        have hu' : u' = u2 := by
          rw [hcomm, hnone cidu iidu]
          rfl
        have hwt1 : w ∈ t1.insiders := by
          rw [hIns1t]
          apply his
          rw [hu']
          exact hwmem
        obtain ⟨ht21, hiidt⟩ := hsame w hwt1 hwpred
        have hkeymem : ∃ κ, (κ, r.issuer_cik) ∈ companiesKey u1 := by
          rcases hcaseCu with ⟨c, hfc, hcid, hdb1, hk⟩ | ⟨hfc, hcid, hdb1, hk⟩
          · refine ⟨c.id, ?_⟩
            rw [hk]
            exact filter_mem_companiesKey u r.issuer_cik c
              (by rw [hfc]; exact List.mem_singleton.mpr rfl)
          · refine ⟨cidu, ?_⟩
            rw [hk]
            exact List.mem_append_right _ (List.mem_singleton.mpr rfl)
        obtain ⟨κ, hκ⟩ := hkeymem
        have hκt : (κ, r.issuer_cik) ∈ companiesKey t := by
          apply hck
          rw [hu']
          show _ ∈ companiesKey u2
          unfold companiesKey
          rw [hComp2u]
          exact hκ
        have hCKt1 : companiesKey t1 = companiesKey t := by
          rcases hcaseCt with ⟨c, hfc, hcid, hdb1, hk⟩ | ⟨hfc, _, _, _⟩
          · exact hk
          · exact absurd hfc (companiesKey_filter_ne_nil t r.issuer_cik κ hκt)
        rw [hnone cidt iidt]
        refine ⟨ht2com, ?_, ?_⟩
        · show t2.insiders = t.insiders
          rw [ht21, hIns1t]
        · show companiesKey t2 = companiesKey t
          calc companiesKey t2 = companiesKey t1 := by unfold companiesKey; rw [hComp2t]
            _ = companiesKey t := hCKt1
      · -- a candidate row exists in both runs
        have hrowu : createTransaction cidu iidu r = some (ctRow cidu iidu f d r) :=
          hsome cidu iidu
        have hrowt : createTransaction cidt iidt r = some (ctRow cidt iidt f d r) :=
          hsome cidt iidt
        rw [hrowt]
        cases hvio : violates u2.committed (ctRow cidu iidu f d r) with
        | true =>
          -- run one rolled back; run two rolls back as well
          have hu' : u' = u := by
            rw [hcomm, hrowu]
            simp [commitWithRetry, hvio]
          have hviot : violates t2.committed (ctRow cidt iidt f d r) = true := by
            rcases violates_split _ _ hvio with hnn | ⟨τ, hτ, hst⟩
            · exact ctRow_notnull_congr cidu iidu cidt iidt f d r _ hnn
            · have hτu : τ ∈ u.committed := by
                rw [hCom2u, hCom1u] at hτ
                exact hτ
              have hτid : τ.insider_id = iidu := by
                unfold sameTuple at hst
                simp only [Bool.and_eq_true, beq_iff_eq] at hst
                exact hst.1.1.2
              have hbound := hwfu.txnInsBound τ hτu
              rw [hτid] at hbound
              rcases hcaseIu with ⟨i, hfound, hiid, hdb2⟩ | ⟨hmiss, hiid, hdb2⟩
              · have hmemi : i ∈ insiderLookup u1 r.owner_cik
                    (normalize_name (some (pyStrOr r.owner_name "Unknown"))) := by
                  rw [hfound]; exact List.mem_singleton.mpr rfl
                obtain ⟨hmem', hpred⟩ := (insiderLookup_mem _ _ _ _).mp hmemi
                have hit1 : i ∈ t1.insiders := by
                  rw [hIns1t]
                  apply his
                  rw [hu', ← hIns1u]
                  exact hmem'
                obtain ⟨ht21, hiidt⟩ := hsame i hit1 hpred
                have hτt : τ ∈ t2.committed := by
                  rw [ht2com]
                  apply hcs
                  rw [hu']
                  exact hτu
                apply violates_dup _ _ τ hτt
                rw [hiidt, ← hiid]
                rw [sameTuple_ctRow_congr τ cidt cidu iidu f d r]
                exact hst
              · exfalso
                rw [hiid, hNI1u] at hbound
                omega
          have hres : commitWithRetry t t2 (some (ctRow cidt iidt f d r)) = t := by
            simp [commitWithRetry, hviot]
          rw [hres]
          exact ⟨rfl, rfl, rfl⟩
        | false =>
          -- run one committed the row; run two hits the uniqueness conflict
          have hu' : u' = { u2 with committed := u2.committed ++ [ctRow cidu iidu f d r] } := by
            rw [hcomm, hrowu]
            simp [commitWithRetry, hvio]
          have hrowmem : ctRow cidu iidu f d r ∈ t.committed := by
            apply hcs
            rw [hu']
            show _ ∈ u2.committed ++ _
            exact List.mem_append_right _ (List.mem_singleton.mpr rfl)
          have hwt1 : w ∈ t1.insiders := by
            rw [hIns1t]
            apply his
            rw [hu']
            exact hwmem
          obtain ⟨ht21, hiidt⟩ := hsame w hwt1 hwpred
          have hviot : violates t2.committed (ctRow cidt iidt f d r) = true := by
            apply violates_dup _ _ (ctRow cidu iidu f d r) (by rw [ht2com]; exact hrowmem)
            rw [hiidt, hwid]
            unfold sameTuple
            simp only [Bool.and_eq_true, beq_iff_eq]
            exact ⟨⟨⟨rfl, rfl⟩, rfl⟩, sqlOptDecEq_refl _⟩
          have hres : commitWithRetry t t2 (some (ctRow cidt iidt f d r)) = t := by
            simp [commitWithRetry, hviot]
          rw [hres]
          exact ⟨rfl, rfl, rfl⟩

/-- Replaying a whole record list from a state that already carries the
first run's committed rows, insiders and company identities adds no
committed row. -/
theorem runIngest_replay : ∀ (rs : List Rec) (u t : DB),
    WF u →
    t.committed = (runIngest u rs).committed →
    t.insiders = (runIngest u rs).insiders →
    companiesKey t = companiesKey (runIngest u rs) →
    (runIngest t rs).committed = t.committed := by
  intro rs
  induction rs with
  | nil =>
    intro u t _ _ _ _
    rfl
  | cons r rs ih =>
    intro u t hwfu hcom hins hkey
    cases hp : processRecord u r with
    | none =>
      have hrun : runIngest u (r :: rs) = u := by
        rw [runIngest_cons, hp]
      rw [hrun] at hcom hins hkey
      have habort : processRecord t r = none :=
        processRecord_abort_congr r u t hins hkey hp
      have htrun : runIngest t (r :: rs) = t := by
        rw [runIngest_cons, habort]
      rw [htrun]
    | some u' =>
      have hrun : runIngest u (r :: rs) = runIngest u' rs := by
        rw [runIngest_cons, hp]
      rw [hrun] at hcom hins hkey
      obtain ⟨m1, m2, m3⟩ := runIngest_mono rs u'
      have hcs : u'.committed ⊆ t.committed := by rw [hcom]; exact m1
      have his : u'.insiders ⊆ t.insiders := by rw [hins]; exact m2
      have hck : companiesKey u' ⊆ companiesKey t := by rw [hkey]; exact m3
      rcases processRecord_replay r u u' t hwfu hp hcs his hck with
        habort | ⟨t', hps, hc', hi', hk'⟩
      · have htrun : runIngest t (r :: rs) = t := by
          rw [runIngest_cons, habort]
        rw [htrun]
      · have htrun : runIngest t (r :: rs) = runIngest t' rs := by
          rw [runIngest_cons, hps]
        rw [htrun]
        have hrec := ih u' t' (processRecord_WF u u' r hwfu hp)
          (hc'.trans hcom) (hi'.trans hins) (hk'.trans hkey)
        rw [hrec, hc']

/-- C1.  Idempotence of ingestion: running `ingest_form4_filings` twice
over the same date window, with the registry returning the same filings
both times, stores exactly as many `InsiderTransaction` rows as running it
once; the mechanism is `_commit_with_retry`: an insert attempt whose
candidate collides on the
`(accession_number, insider_id, transaction_date, shares_traded)` UNIQUE
constraint is caught, the whole pending change is rolled back (no row
added), and the loop continues with the next record rather than
surfacing an error. -/
theorem c1_ingest_idempotent :
    (∀ fs : List (Metadata × String),
      (ingestFilings fs (ingestFilings fs emptyDB)).committed.length =
        (ingestFilings fs emptyDB).committed.length) ∧
    (∀ (dbc dbs : DB) (row : TxnRow),
      (dbs.committed.any fun τ => sameTuple τ row) = true →
      commitWithRetry dbc dbs (some row) = dbc ∧
      (commitWithRetry dbc dbs (some row)).committed = dbc.committed) ∧
    (∀ (db db' : DB) (r : Rec) (rs : List Rec), processRecord db r = some db' →
      runIngest db (r :: rs) = runIngest db' rs) := by
  refine ⟨?_, ?_, ?_⟩
  · intro fs
    have hrep := runIngest_replay (recsOf fs) emptyDB (runIngest emptyDB (recsOf fs))
      WF_empty rfl rfl rfl
    show (runIngest (runIngest emptyDB (recsOf fs)) (recsOf fs)).committed.length = _
    rw [hrep]
    rfl
  · intro dbc dbs row h
    have hv : violates dbs.committed row = true := by
      unfold violates
      simp [h]
    constructor <;> simp [commitWithRetry, hv]
  · intro db db' r rs h
    rw [runIngest_cons, h]

/-- A committed transaction row used by the C1 witness. -/
def rowW : TxnRow :=
  { company_id := 1, insider_id := 1, filing_date := ⟨2024, 1, 2⟩,
    transaction_date := ⟨2024, 1, 2⟩, form_type := some "4",
    transaction_code := some "S", transaction_type := some "SELL",
    insider_relationship := none, security_title := none, shares_traded := none,
    share_price := none, transaction_value_usd := none, shares_owned_after := none,
    ownership_type := none, accession_number := some "0000320193-24-000010" }

def dbsW : DB := { emptyDB with committed := [rowW] }

/-- A record that resolves and commits cleanly from the empty store. -/
def recW : Rec :=
  { recGood with issuer_cik := some "320193", issuer_name := some "Apple Inc.",
                 owner_name := some "COOK TIMOTHY D",
                 accession_number := some "0000320193-24-000010" }

/-- The state after processing `recW` from the empty store. -/
def dbW : DB :=
  { companies := [⟨1, some "320193", none, "Apple Inc."⟩],
    insiders := [⟨1, none, "COOK TIMOTHY D", some "cook timothy d"⟩],
    committed := [{ company_id := 1, insider_id := 1, filing_date := ⟨2024, 1, 2⟩,
                    transaction_date := ⟨2024, 1, 3⟩, form_type := some "4",
                    transaction_code := some "P", transaction_type := some "BUY",
                    insider_relationship := none, security_title := none,
                    shares_traded := none, share_price := none,
                    transaction_value_usd := none, shares_owned_after := none,
                    ownership_type := none,
                    accession_number := some "0000320193-24-000010" }],
    nextCompanyId := 2, nextInsiderId := 2 }

/-- Witness for C1's hypothesis-bearing conjuncts at concrete inputs. -/
theorem c1_ingest_idempotent_witness :
    (commitWithRetry emptyDB dbsW (some rowW) = emptyDB ∧
      (commitWithRetry emptyDB dbsW (some rowW)).committed = emptyDB.committed) ∧
    runIngest emptyDB [recW] = runIngest dbW [] :=
  ⟨c1_ingest_idempotent.2.1 emptyDB dbsW rowW (by decide),
   c1_ingest_idempotent.2.2 emptyDB dbW recW [] (by rfl)⟩

end SecInsider
